import Mathlib

/-!
Shallow embedding of the Rotation & Ranking Engine of the ROC City
pickleball league configurator.

The embedding covers the four league variants found in the sources:

* `RoundRobinLeague`      (ladder_league.py)       — prefix `rr_`
* `SeededLadderLeague`    (seeded_ladder_league.py) — prefix `sl_`
* `MixedDoublesLeague`    (mixed_doubles_league.py) — prefix `md_`
* `LadderLeague`          (ladder_league_old.py)    — prefix `old_`

Python dictionaries keyed by participant name are modelled as total
functions `String → _` (for the stats dictionaries, which always hold an
entry for every roster member) or `String → Option _` (for the tier
dictionary, whose lookups in the source use `.get` with a default).
Calls to `random.shuffle` are modelled by an explicitly passed
permutation function; theorems quantify over it, requiring only that it
permutes its input.  Python `list.sort(key=...)` is a stable sort and is
modelled by `pysort`, a stable insertion sort.
-/

namespace PBEngine

/-- Python's `list.sort(key=...)` is a stable sort, and the result of a
stable sort under a total preorder is uniquely determined, so any stable
sort models it exactly.  We use insertion sort (structurally recursive,
hence evaluable by the kernel): an element is placed before the first
already-sorted element it compares less-or-equal to, which preserves the
original order of elements with equal keys. -/
def pysort {α : Type} (le : α → α → Bool) (l : List α) : List α :=
  List.insertionSort (fun a b => le a b = true) l

/-- One per-game score record of the round-robin variant
(`player_stats[name]['game_scores']` entries, ladder_league.py lines 200-204). -/
structure GameScore where
  round : Nat
  points_for : Nat
  points_against : Nat
deriving DecidableEq

/-- Per-player cumulative statistics of the round-robin variant
(`player_stats` entries created in `add_player`, ladder_league.py lines 39-48). -/
structure PlayerStats where
  games_played : Nat
  wins : Nat
  losses : Nat
  total_points : Nat
  total_points_against : Nat
  rounds_sat_out : Nat
  last_sat_out_round : Int
  game_scores : List GameScore
deriving DecidableEq

/-- The fresh stats record assigned to a newly added player
(`last_sat_out_round` starts at `-2`). -/
def initStats : PlayerStats :=
  { games_played := 0, wins := 0, losses := 0, total_points := 0,
    total_points_against := 0, rounds_sat_out := 0, last_sat_out_round := -2,
    game_scores := [] }

/-- One court of a round in the solo variants
(`generate_round` court dicts, ladder_league.py lines 149-157). -/
structure Court where
  court : Nat
  players : List String
  team1 : List String
  team2 : List String
  team1_score : Nat
  team2_score : Nat
  completed : Bool
deriving DecidableEq

/-- One generated round (`round_data`, ladder_league.py lines 164-168). -/
structure Round where
  round_number : Nat
  courts : List Court
  sitting_players : List String
deriving DecidableEq

/-- Engine state of `RoundRobinLeague`.  The presentation-only fields
(`player_numbers`, `next_player_number`, `session_history`,
`current_session`) play no role in the verified claims and are omitted. -/
structure RRState where
  players : List String
  session_rounds : List Round
  stats : String → PlayerStats

/-- Pointwise update of a stats dictionary at one key. -/
def updStats (f : String → PlayerStats) (p : String) (g : PlayerStats → PlayerStats) :
    String → PlayerStats :=
  fun q => if q = p then g (f q) else f q

/-- `get_active_courts` (ladder_league.py lines 65-76 and
seeded_ladder_league.py lines 80-91): court count as a step function of
the player count. -/
def get_active_courts (n : Nat) : Nat :=
  if 16 ≤ n then 4
  else if 12 ≤ n then 3
  else if 8 ≤ n then 2
  else 1

/-- `can_sit_out` (ladder_league.py lines 82-85): a participant may sit out
round `r` only if `r - last_sat_out_round > 1`, i.e. they did not sit out
the immediately preceding round. -/
def can_sit_out (last_sat : Int) (r : Nat) : Bool :=
  1 < (r : Int) - last_sat

/-- The sit-priority score (ladder_league.py line 111 and
seeded_ladder_league.py line 122):
`games_played * 10 - rounds_sat_out * 20 + (r - last_sat_out_round)`. -/
def sit_score (games_played rounds_sat : Nat) (last_sat : Int) (r : Nat) : Int :=
  (games_played : Int) * 10 - (rounds_sat : Int) * 20 + ((r : Int) - last_sat)

/-- The scored-and-sorted eligible candidates of the sit-out selectors:
`sit_scores` after the stable descending `sit_scores.sort(key=lambda x:
x[1], reverse=True)` (ladder_league.py lines 101-115). -/
def sit_sorted (pool : List String) (elig : String → Bool) (score : String → Int) :
    List (String × Int) :=
  pysort (fun a b => decide (b.2 ≤ a.2))
    ((pool.filter elig).map (fun p => (p, score p)))

/-- The eligible participants selected before any forced fill:
`[p for p, _ in sit_scores[:num_sitting]]`. -/
def sit_pre (pool : List String) (elig : String → Bool) (score : String → Int)
    (num_sitting : Nat) : List String :=
  ((sit_sorted pool elig score).take num_sitting).map Prod.fst

/-- Shared skeleton of the three `select_sitting_players` /
`select_sitting_teams` implementations (ladder_league.py lines 91-124,
seeded_ladder_league.py lines 102-136, mixed_doubles_league.py lines
107-141).  The variants differ only in how `num_sitting` is computed, in
the eligibility/score functions, and in how the forced-fill pool is
ordered (`fill`): the round-robin and mixed-doubles variants shuffle it
randomly, the seeded variant sorts it by games played descending.
Within the skeleton: eligible pool members are scored, stably sorted by
score descending, the top `num_sitting` are taken, and if fewer eligible
members exist the remainder is drawn from `fill` applied to the
not-yet-selected pool. -/
def sit_select (pool : List String) (elig : String → Bool) (score : String → Int)
    (num_sitting : Nat) (fill : List String → List String) : List String :=
  if num_sitting = 0 then []
  else
    let sitting := sit_pre pool elig score num_sitting
    if sitting.length < num_sitting then
      sitting ++ (fill (pool.filter (fun p => decide (p ∉ sitting)))).take
        (num_sitting - sitting.length)
    else sitting

/-- `RoundRobinLeague.select_sitting_players` (ladder_league.py lines
91-124).  `σ` stands for the `random.shuffle` call on line 121. -/
def rr_select_sitting (players : List String) (stats : String → PlayerStats)
    (r : Nat) (σ : List String → List String) : List String :=
  sit_select players
    (fun p => can_sit_out (stats p).last_sat_out_round r)
    (fun p => sit_score (stats p).games_played (stats p).rounds_sat_out
      (stats p).last_sat_out_round r)
    (players.length - get_active_courts players.length * 4)
    σ

/-- Per-player statistics of the seeded ladder variant
(seeded_ladder_league.py lines 48-55): no win/loss tallies. -/
structure SLStats where
  games_played : Nat
  total_points : Nat
  total_points_against : Nat
  rounds_sat_out : Nat
  last_sat_out_round : Int
  game_scores : List GameScore
deriving DecidableEq

/-- Fresh stats for a newly added seeded-ladder player. -/
def initSLStats : SLStats :=
  { games_played := 0, total_points := 0, total_points_against := 0,
    rounds_sat_out := 0, last_sat_out_round := -2, game_scores := [] }

/-- Engine state of `SeededLadderLeague`.  `tiers` models the
`player_tiers` dict (absent keys are `none`; the source reads it through
`.get` with defaults 2 or 4 depending on the call site), and
`tier_court_assignments` the dict of the same name.  Presentation-only
fields (`player_numbers`, `next_player_number`, `session_history`,
`current_session`) are omitted. -/
structure SLState where
  players : List String
  session_rounds : List Round
  stats : String → SLStats
  tiers : String → Option Nat
  is_seeding_session : Bool
  tier_court_assignments : Nat → Option (List Nat)

/-- Pointwise update of a seeded-ladder stats dictionary at one key. -/
def updSL (f : String → SLStats) (p : String) (g : SLStats → SLStats) :
    String → SLStats :=
  fun q => if q = p then g (f q) else f q

/-- `SeededLadderLeague.get_tier_players` (seeded_ladder_league.py lines
76-78): roster members whose tier, defaulting to 2 for missing entries,
equals `tier`. -/
def get_tier_players (st : SLState) (tier : Nat) : List String :=
  st.players.filter (fun p => decide ((st.tiers p).getD 2 = tier))

/-- `SeededLadderLeague.select_sitting_players` (seeded_ladder_league.py
lines 102-136).  Unlike the round-robin variant, the forced-fill pool is
sorted by games played, descending and stable (line 133), with no
shuffling. -/
def sl_select_sitting (pool : List String) (stats : String → SLStats)
    (num_needed : Nat) (r : Nat) : List String :=
  sit_select pool
    (fun p => can_sit_out (stats p).last_sat_out_round r)
    (fun p => sit_score (stats p).games_played (stats p).rounds_sat_out
      (stats p).last_sat_out_round r)
    (pool.length - num_needed)
    (fun l => pysort
      (fun a b => decide ((stats b).games_played ≤ (stats a).games_played)) l)

/-- `_create_court_data` (seeded_ladder_league.py lines 234-243), which is
also the court dict built inline by `RoundRobinLeague.generate_round`:
first two players form team 1, last two team 2. -/
def mk_court_data (court_num : Nat) (cp : List String) : Court :=
  { court := court_num, players := cp, team1 := cp.take 2, team2 := cp.drop 2,
    team1_score := 0, team2_score := 0, completed := false }

/-- Sequential slicing of the shuffled playing list into per-court groups
of `size`, paired with the court number each group is destined for.  This
is the loop shape `playing[i*size : i*size + size]` used with
`enumerate(courts_for_tier)` in `_generate_tiered_round`
(seeded_ladder_league.py lines 216-218) and, with court numbers
`1..num_courts`, the slicing loops of `RoundRobinLeague.generate_round`
(ladder_league.py lines 144-146) and `MixedDoublesLeague.generate_round`
(mixed_doubles_league.py lines 161-163). -/
def court_slices {α : Type} (size : Nat) : List Nat → List α → List (Nat × List α)
  | [], _ => []
  | c :: cs, l => (c, l.take size) :: court_slices size cs (l.drop size)

/-- Court records for the full slices; slices of fewer than 4 players are
skipped (`if len(court_players) == 4` guards in every solo variant). -/
def courts_of_slices (slices : List (Nat × List String)) : List Court :=
  slices.filterMap (fun s =>
    if s.2.length = 4 then some (mk_court_data s.1 s.2) else none)

/-- Players of the skipped short slices; in `_generate_tiered_round`
these are added to the sitting list (seeded_ladder_league.py line 224). -/
def leftover_of_slices (slices : List (Nat × List String)) : List String :=
  (slices.filterMap (fun s => if s.2.length = 4 then none else some s.2)).flatten

/-- `_finalize_round` (seeded_ladder_league.py lines 245-258) and the tail
of `RoundRobinLeague.generate_round` (ladder_league.py lines 159-171):
bump `rounds_sat_out` and stamp `last_sat_out_round` for every sitting
player, then append the round. -/
def sl_fin_round (st : SLState) (r : Nat) (courts : List Court)
    (sitting : List String) : Option Round × Option String × SLState :=
  let stats := sitting.foldl (fun f p => updSL f p (fun s =>
    { s with rounds_sat_out := s.rounds_sat_out + 1,
             last_sat_out_round := (r : Int) })) st.stats
  let rd : Round := { round_number := r, courts := courts, sitting_players := sitting }
  (some rd, none,
    { st with session_rounds := st.session_rounds ++ [rd], stats := stats })

/-- `_generate_seeding_round` (seeded_ladder_league.py lines 147-168).
`σ` models the `random.shuffle(playing_players)` call. -/
def sl_generate_seeding_round (st : SLState) (r : Nat)
    (σ : List String → List String) : Option Round × Option String × SLState :=
  let num_courts := get_active_courts st.players.length
  let players_needed := num_courts * 4
  if st.players.length < players_needed then
    (none, some ("Need at least " ++ toString players_needed ++ " players for "
      ++ toString num_courts ++ " courts"), st)
  else
    let sitting := sl_select_sitting st.players st.stats players_needed r
    let playing := σ (st.players.filter (fun p => decide (p ∉ sitting)))
    let courts := courts_of_slices
      (court_slices 4 ((List.range num_courts).map (fun i => i + 1)) playing)
    sl_fin_round st r courts sitting

/-- The per-tier body of the `for tier_num in [1, 2, 3, 4]` loop of
`_generate_tiered_round` (seeded_ladder_league.py lines 177-230).
Returns the courts contributed by the tier and the tier members added to
`all_sitting` (short-slice players first, then the selected sitters, then
any surplus of the playing list, matching the order of the source's
`extend` calls). -/
def sl_tier_contribution (st : SLState) (r : Nat)
    (σ : Nat → List String → List String) (tier_num total_courts : Nat) :
    List Court × List String :=
  let tier_players := get_tier_players st tier_num
  if tier_players.length < 4 then ([], tier_players)
  else
    let assigned := (st.tier_court_assignments tier_num).getD []
    let active_assigned := assigned.filter (fun c => decide (c ≤ total_courts))
    if active_assigned = [] then ([], tier_players)
    else
      let max_courts := tier_players.length / 4
      let courts_to_use := min active_assigned.length max_courts
      if courts_to_use = 0 then ([], tier_players)
      else
        let courts_for_tier := active_assigned.take courts_to_use
        let players_needed := courts_to_use * 4
        let sitting := sl_select_sitting tier_players st.stats players_needed r
        let playing := σ tier_num (tier_players.filter (fun p => decide (p ∉ sitting)))
        let slices := court_slices 4 courts_for_tier playing
        let extra := if players_needed < playing.length
          then playing.drop players_needed else []
        (courts_of_slices slices, leftover_of_slices slices ++ sitting ++ extra)

/-- `_generate_tiered_round` (seeded_ladder_league.py lines 170-232):
concatenate the contributions of tiers 1-4 and finalize.  Note that this
strategy has no failure path: it always appends a round, even one with
zero courts. -/
def sl_generate_tiered_round (st : SLState) (r : Nat)
    (σ : Nat → List String → List String) : Option Round × Option String × SLState :=
  let total_courts := get_active_courts st.players.length
  let contribs := [1, 2, 3, 4].map (fun t => sl_tier_contribution st r σ t total_courts)
  sl_fin_round st r ((contribs.map Prod.fst).flatten) ((contribs.map Prod.snd).flatten)

/-- `SeededLadderLeague.generate_round` (seeded_ladder_league.py lines
138-145): dispatch on the session kind. -/
def sl_generate_round (st : SLState) (σseed : List String → List String)
    (σtier : Nat → List String → List String) :
    Option Round × Option String × SLState :=
  let r := st.session_rounds.length + 1
  if st.is_seeding_session then sl_generate_seeding_round st r σseed
  else sl_generate_tiered_round st r σtier

/-- Python set equality `set(a) == set(b)` on name lists. -/
def same_set (a b : List String) : Bool :=
  a.all (fun x => decide (x ∈ b)) && b.all (fun x => decide (x ∈ a))

/-- Truthiness of the optional team arguments (`if team1 and team2`):
present and non-empty. -/
def opt_truthy (o : Option (List String)) : Bool :=
  match o with
  | some l => !l.isEmpty
  | none => false

/-- `_update_stats_for_team` (seeded_ladder_league.py lines 302-306):
games played and points accumulate; no game-score record is appended and
no win/loss tally exists in this variant. -/
def sl_update_team (team : List String) (pf pa : Nat)
    (f : String → SLStats) : String → SLStats :=
  team.foldl (fun g p => updSL g p (fun s =>
    { s with games_played := s.games_played + 1,
             total_points := s.total_points + pf,
             total_points_against := s.total_points_against + pa })) f

/-- `SeededLadderLeague.record_game_score` (seeded_ladder_league.py lines
260-300).  When both team arguments are supplied (and non-empty), the
court is located by court number plus set-equality of both sides — with
no check of the `completed` flag; without them, the first incomplete
court with that number is taken.  The source's second lookup loop (lines
282-287) repeats the same team-matching search and can never succeed
when the first found nothing, so it adds no behaviour.  Once a court is
found, scores are overwritten and stats updated unconditionally. -/
def sl_record_game_score (st : SLState) (round_num court_num : Nat)
    (s1 s2 : Nat) (t1 t2 : Option (List String)) : Bool × SLState :=
  if round_num = 0 ∨ st.session_rounds.length < round_num then (false, st)
  else
    match st.session_rounds[round_num - 1]? with
    | none => (false, st)
    | some rd =>
      let teams_given := opt_truthy t1 && opt_truthy t2
      let found := rd.courts.findIdx? (fun c =>
        decide (c.court = court_num) &&
          (if teams_given
            then same_set c.team1 (t1.getD []) && same_set c.team2 (t2.getD [])
            else !c.completed))
      match found with
      | none => (false, st)
      | some ci =>
        match rd.courts[ci]? with
        | none => (false, st)
        | some c =>
          let c1 : Court := { c with team1_score := s1, team2_score := s2,
                                     completed := true }
          let rd1 : Round := { rd with courts := rd.courts.set ci c1 }
          let f1 := sl_update_team c.team1 s1 s2 st.stats
          let f2 := sl_update_team c.team2 s2 s1 f1
          (true, { st with
            session_rounds := st.session_rounds.set (round_num - 1) rd1,
            stats := f2 })

/-- A ranking entry of the seeded ladder variant
(seeded_ladder_league.py lines 320-328). -/
structure SLRankEntry where
  player : String
  games_played : Nat
  counted_games : Nat
  points : Nat
  points_against : Nat
  differential : Int
  tier : Nat
deriving DecidableEq

/-- The entry built for one player by `SeededLadderLeague.get_rankings`;
the tier field defaults missing dictionary entries to 4. -/
def sl_mk_entry (st : SLState) (p : String) : SLRankEntry :=
  let s := st.stats p
  { player := p, games_played := s.games_played, counted_games := s.games_played,
    points := s.total_points, points_against := s.total_points_against,
    differential := (s.total_points : Int) - (s.total_points_against : Int),
    tier := (st.tiers p).getD 4 }

/-- The stable ascending comparison realising
`sort(key=lambda x: (x['tier'], -x['points'], -x['differential']))`
(seeded_ladder_league.py line 332). -/
def sl_rank_key_le (a b : SLRankEntry) : Bool :=
  decide (a.tier < b.tier ∨ (a.tier = b.tier ∧
    (b.points < a.points ∨ (b.points = a.points ∧ b.differential ≤ a.differential))))

/-- `SeededLadderLeague.get_rankings` (seeded_ladder_league.py lines
307-334): cumulative totals, tier as the primary sort key. -/
def sl_get_rankings (st : SLState) : List SLRankEntry :=
  if st.players = [] then []
  else pysort sl_rank_key_le (st.players.map (sl_mk_entry st))

/-- Assign tier `t` to every name in `ps`, later assignments overriding
earlier ones (the `self.player_tiers[r['player']] = t` loops of
`perform_promotion_relegation`). -/
def set_tiers (ps : List String) (t : Nat) (f : String → Option Nat) :
    String → Option Nat :=
  ps.foldl (fun g p => fun q => if q = p then some t else g q) f

/-- Bottom two entries of a per-tier ranking list
(`tier_rankings[-2:]`), as player names. -/
def bottom2 (l : List SLRankEntry) : List String :=
  (l.drop (l.length - 2)).map (fun e => e.player)

/-- Top two entries of a per-tier ranking list (`tier_rankings[:2]`), as
player names. -/
def top2 (l : List SLRankEntry) : List String :=
  (l.take 2).map (fun e => e.player)

/-- One tier's ranking list, as computed by the
`[r for r in self.get_rankings() if r['tier'] == i]` comprehensions of
`perform_promotion_relegation` (seeded_ladder_league.py lines 391-394;
the source calls `get_rankings()` once per tier, all on the same
pre-swap state). -/
def tier_list (st : SLState) (i : Nat) : List SLRankEntry :=
  (sl_get_rankings st).filter (fun e => decide (e.tier = i))

/-- `SeededLadderLeague.perform_promotion_relegation`
(seeded_ladder_league.py lines 388-437).  The four per-tier ranking
lists are computed up front from the pre-swap state; each adjacent pair
with both tiers holding at least 4 entries then relegates the bottom two
of the upper tier and promotes the top two of the lower tier, the three
boundary swaps applied in order 1-2, 2-3, 3-4.  Besides the new state it
returns the `promoted` and `relegated` logs `(player, from, to)`. -/
def sl_promo_releg (st : SLState) :
    SLState × List (String × Nat × Nat) × List (String × Nat × Nat) :=
  let t1 := tier_list st 1
  let t2 := tier_list st 2
  let t3 := tier_list st 3
  let t4 := tier_list st 4
  let f0 := st.tiers
  let f1 := if 4 ≤ t1.length ∧ 4 ≤ t2.length
    then set_tiers (top2 t2) 1 (set_tiers (bottom2 t1) 2 f0) else f0
  let f2 := if 4 ≤ t2.length ∧ 4 ≤ t3.length
    then set_tiers (top2 t3) 2 (set_tiers (bottom2 t2) 3 f1) else f1
  let f3 := if 4 ≤ t3.length ∧ 4 ≤ t4.length
    then set_tiers (top2 t4) 3 (set_tiers (bottom2 t3) 4 f2) else f2
  let promoted :=
    (if 4 ≤ t1.length ∧ 4 ≤ t2.length
      then (top2 t2).map (fun p => (p, 2, 1)) else []) ++
    (if 4 ≤ t2.length ∧ 4 ≤ t3.length
      then (top2 t3).map (fun p => (p, 3, 2)) else []) ++
    (if 4 ≤ t3.length ∧ 4 ≤ t4.length
      then (top2 t4).map (fun p => (p, 4, 3)) else [])
  let relegated :=
    (if 4 ≤ t1.length ∧ 4 ≤ t2.length
      then (bottom2 t1).map (fun p => (p, 1, 2)) else []) ++
    (if 4 ≤ t2.length ∧ 4 ≤ t3.length
      then (bottom2 t2).map (fun p => (p, 2, 3)) else []) ++
    (if 4 ≤ t3.length ∧ 4 ≤ t4.length
      then (bottom2 t3).map (fun p => (p, 3, 4)) else [])
  ({ st with tiers := f3 }, promoted, relegated)

/-- `SeededLadderLeague.add_player` (seeded_ladder_league.py lines 45-62):
a non-empty, non-duplicate name is appended, given fresh stats, and
assigned tier 4.  The player-number bookkeeping is presentation-only and
omitted. -/
def sl_add_player (st : SLState) (name : String) : Bool × SLState :=
  if name ≠ "" ∧ name ∉ st.players then
    (true,
      { st with
        players := st.players ++ [name]
        stats := fun q => if q = name then initSLStats else st.stats q
        tiers := fun q => if q = name then some 4 else st.tiers q })
  else (false, st)

/-- `SeededLadderLeague.clear_current_session` (seeded_ladder_league.py
lines 489-499): rounds dropped, stats re-initialised, tiers untouched. -/
def sl_clear_current_session (st : SLState) : SLState :=
  { st with
    session_rounds := []
    stats := fun q => if q ∈ st.players then initSLStats else st.stats q }

/-- `SeededLadderLeague.reset_all` (seeded_ladder_league.py lines
504-519): rounds and stats reset, seeding flag restored, and — notably —
the tier dictionary is rebuilt assigning every roster member tier 2
(not the tier-4 default used by `add_player`). -/
def sl_reset_all (st : SLState) : SLState :=
  { st with
    session_rounds := []
    is_seeding_session := true
    stats := fun q => if q ∈ st.players then initSLStats else st.stats q
    tiers := fun q => if q ∈ st.players then some 2 else none }

/-- `RoundRobinLeague.generate_round` (ladder_league.py lines 126-171).
`σsit` models the forced-fill shuffle inside `select_sitting_players`,
`σplay` the `random.shuffle(playing_players)` call on line 140. -/
def rr_generate_round (st : RRState) (σsit σplay : List String → List String) :
    Option Round × Option String × RRState :=
  let num_courts := get_active_courts st.players.length
  if st.players.length < num_courts * 4 then
    (none, some ("Need at least " ++ toString (num_courts * 4) ++ " players for "
      ++ toString num_courts ++ " courts"), st)
  else
    let r := st.session_rounds.length + 1
    let sitting := rr_select_sitting st.players st.stats r σsit
    let playing := σplay (st.players.filter (fun p => decide (p ∉ sitting)))
    let courts := courts_of_slices
      (court_slices 4 ((List.range num_courts).map (fun i => i + 1)) playing)
    let stats := sitting.foldl (fun f p => updStats f p (fun s =>
      { s with rounds_sat_out := s.rounds_sat_out + 1,
               last_sat_out_round := (r : Int) })) st.stats
    let rd : Round := { round_number := r, courts := courts, sitting_players := sitting }
    (some rd, none,
      { st with session_rounds := st.session_rounds ++ [rd], stats := stats })

/-- The per-team stats update of `RoundRobinLeague.record_game_score`
(ladder_league.py lines 194-216): each player of the side gains a game,
a win or a loss according to `won`, the points for/against, and a
per-game score record. -/
def rr_update_team (won : Bool) (pf pa rnd : Nat) (team : List String)
    (f : String → PlayerStats) : String → PlayerStats :=
  team.foldl (fun g p => updStats g p (fun s =>
    { s with games_played := s.games_played + 1,
             wins := s.wins + (if won then 1 else 0),
             losses := s.losses + (if won then 0 else 1),
             total_points := s.total_points + pf,
             total_points_against := s.total_points_against + pa,
             game_scores := s.game_scores ++ [⟨rnd, pf, pa⟩] })) f

/-- `RoundRobinLeague.record_game_score` (ladder_league.py lines 173-218):
reject out-of-range rounds, unknown courts, and — unconditionally —
already-completed courts; on success store the scores, mark completed,
and update both sides, with `team1_won = team1_score > team2_score` and
team 2 credited the win exactly when team 1 is not. -/
def rr_record_game_score (st : RRState) (round_num court_num s1 s2 : Nat) :
    Bool × RRState :=
  if round_num = 0 ∨ st.session_rounds.length < round_num then (false, st)
  else
    match st.session_rounds[round_num - 1]? with
    | none => (false, st)
    | some rd =>
      match rd.courts.findIdx? (fun c => decide (c.court = court_num)) with
      | none => (false, st)
      | some ci =>
        match rd.courts[ci]? with
        | none => (false, st)
        | some c =>
          if c.completed then (false, st)
          else
            let c1 : Court := { c with team1_score := s1, team2_score := s2,
                                       completed := true }
            let rd1 : Round := { rd with courts := rd.courts.set ci c1 }
            let team1_won := decide (s2 < s1)
            let f1 := rr_update_team team1_won s1 s2 round_num c.team1 st.stats
            let f2 := rr_update_team (!team1_won) s2 s1 round_num c.team2 f1
            (true, { st with
              session_rounds := st.session_rounds.set (round_num - 1) rd1,
              stats := f2 })

/-- A ranking entry of the round-robin variant
(ladder_league.py lines 235-243). -/
structure RankEntry where
  player : String
  games_played : Nat
  wins : Nat
  losses : Nat
  points : Nat
  points_against : Nat
  differential : Int
deriving DecidableEq

/-- The entry built for one player by `RoundRobinLeague.get_rankings`. -/
def rr_mk_entry (stats : String → PlayerStats) (p : String) : RankEntry :=
  let s := stats p
  { player := p, games_played := s.games_played, wins := s.wins,
    losses := s.losses, points := s.total_points,
    points_against := s.total_points_against,
    differential := (s.total_points : Int) - (s.total_points_against : Int) }

/-- The stable descending comparison realising
`sort(key=lambda x: (x['wins'], x['differential'], x['points']), reverse=True)`
(ladder_league.py line 246). -/
def rr_rank_key_le (a b : RankEntry) : Bool :=
  decide (b.wins < a.wins ∨ (b.wins = a.wins ∧
    (b.differential < a.differential ∨ (b.differential = a.differential ∧
      b.points ≤ a.points))))

/-- `RoundRobinLeague.get_rankings` (ladder_league.py lines 220-248):
cumulative totals for every roster player, sorted by wins, then
differential, then points, all descending. -/
def rr_get_rankings (players : List String) (stats : String → PlayerStats) :
    List RankEntry :=
  if players = [] then []
  else pysort rr_rank_key_le (players.map (rr_mk_entry stats))

/-- A fixed doubles team (mixed_doubles_league.py lines 48-52). -/
structure Team where
  name : String
  player1 : String
  player2 : String
deriving DecidableEq

/-- One per-game record of the mixed-doubles variant, which also carries
the opponent team name (mixed_doubles_league.py lines 229-240). -/
structure TeamGameScore where
  round : Nat
  opponent : String
  score_for : Nat
  score_against : Nat
deriving DecidableEq

/-- Per-team statistics (mixed_doubles_league.py lines 54-63). -/
structure TeamStats where
  games_played : Nat
  wins : Nat
  losses : Nat
  total_points : Nat
  total_points_against : Nat
  rounds_sat_out : Nat
  last_sat_out_round : Int
  game_scores : List TeamGameScore
deriving DecidableEq

/-- One court of the mixed-doubles variant: one team per side
(mixed_doubles_league.py lines 166-173). -/
structure MDCourt where
  court : Nat
  team1 : Team
  team2 : Team
  team1_score : Nat
  team2_score : Nat
  completed : Bool
deriving DecidableEq

/-- One mixed-doubles round (mixed_doubles_league.py lines 180-184). -/
structure MDRound where
  round_number : Nat
  courts : List MDCourt
  sitting_teams : List String
deriving DecidableEq

/-- Engine state of `MixedDoublesLeague` (`team_numbers`,
`next_team_number`, `session_history`, `current_session` omitted). -/
structure MDState where
  teams : List Team
  session_rounds : List MDRound
  stats : String → TeamStats

/-- Pointwise update of a team-stats dictionary at one key. -/
def updMD (f : String → TeamStats) (p : String) (g : TeamStats → TeamStats) :
    String → TeamStats :=
  fun q => if q = p then g (f q) else f q

/-- `MixedDoublesLeague.get_active_courts` (mixed_doubles_league.py lines
81-92): thresholds halved because two teams occupy a court. -/
def md_get_active_courts (n : Nat) : Nat :=
  if 8 ≤ n then 4
  else if 6 ≤ n then 3
  else if 4 ≤ n then 2
  else 1

/-- `MixedDoublesLeague.select_sitting_teams` (mixed_doubles_league.py
lines 107-141), over team names.  As in the round-robin variant the
forced-fill pool is shuffled (`σ`, line 138). -/
def md_select_sitting (team_names : List String) (stats : String → TeamStats)
    (r : Nat) (σ : List String → List String) : List String :=
  sit_select team_names
    (fun t => can_sit_out (stats t).last_sat_out_round r)
    (fun t => sit_score (stats t).games_played (stats t).rounds_sat_out
      (stats t).last_sat_out_round r)
    (team_names.length - md_get_active_courts team_names.length * 2)
    σ

/-- Build a mixed-doubles court from a slice of exactly two teams
(`if len(court_teams) == 2` in mixed_doubles_league.py lines 165-173). -/
def md_courts_of_slices (slices : List (Nat × List Team)) : List MDCourt :=
  slices.filterMap (fun s =>
    match s.2 with
    | [a, b] => some { court := s.1, team1 := a, team2 := b,
                       team1_score := 0, team2_score := 0, completed := false }
    | _ => none)

/-- `MixedDoublesLeague.generate_round` (mixed_doubles_league.py lines
143-187): two teams per court, sit-out bookkeeping on team names. -/
def md_generate_round (st : MDState) (σsit : List String → List String)
    (σplay : List Team → List Team) : Option MDRound × Option String × MDState :=
  let num_courts := md_get_active_courts st.teams.length
  if st.teams.length < num_courts * 2 then
    (none, some ("Need at least " ++ toString (num_courts * 2) ++ " teams for "
      ++ toString num_courts ++ " courts"), st)
  else
    let r := st.session_rounds.length + 1
    let names := st.teams.map (fun t => t.name)
    let sitting := md_select_sitting names st.stats r σsit
    let playing := σplay (st.teams.filter (fun t => decide (t.name ∉ sitting)))
    let courts := md_courts_of_slices
      (court_slices 2 ((List.range num_courts).map (fun i => i + 1)) playing)
    let stats := sitting.foldl (fun f t => updMD f t (fun s =>
      { s with rounds_sat_out := s.rounds_sat_out + 1,
               last_sat_out_round := (r : Int) })) st.stats
    let rd : MDRound := { round_number := r, courts := courts, sitting_teams := sitting }
    (some rd, none,
      { st with session_rounds := st.session_rounds ++ [rd], stats := stats })

/-- The stats update for one side in
`MixedDoublesLeague.record_game_score` (games/points part, lines
212-218, plus the game-score append of lines 229-240). -/
def md_update_team (tn : String) (pf pa rnd : Nat) (opp : String)
    (f : String → TeamStats) : String → TeamStats :=
  updMD f tn (fun s =>
    { s with games_played := s.games_played + 1,
             total_points := s.total_points + pf,
             total_points_against := s.total_points_against + pa,
             game_scores := s.game_scores ++ [⟨rnd, opp, pf, pa⟩] })

/-- The win/loss update of `MixedDoublesLeague.record_game_score` (lines
220-226): if `team1_score > team2_score` team 1 wins, otherwise —
including equal scores — team 2 is credited the win. -/
def md_update_winloss (t1n t2n : String) (s1 s2 : Nat)
    (f : String → TeamStats) : String → TeamStats :=
  if s2 < s1 then
    updMD (updMD f t1n (fun s => { s with wins := s.wins + 1 })) t2n
      (fun s => { s with losses := s.losses + 1 })
  else
    updMD (updMD f t2n (fun s => { s with wins := s.wins + 1 })) t1n
      (fun s => { s with losses := s.losses + 1 })

/-- `MixedDoublesLeague.record_game_score` (mixed_doubles_league.py lines
189-242): same lookup and completed-rejection as the round-robin
variant, with team-level stat updates. -/
def md_record_game_score (st : MDState) (round_num court_num s1 s2 : Nat) :
    Bool × MDState :=
  if round_num = 0 ∨ st.session_rounds.length < round_num then (false, st)
  else
    match st.session_rounds[round_num - 1]? with
    | none => (false, st)
    | some rd =>
      match rd.courts.findIdx? (fun c => decide (c.court = court_num)) with
      | none => (false, st)
      | some ci =>
        match rd.courts[ci]? with
        | none => (false, st)
        | some c =>
          if c.completed then (false, st)
          else
            let c1 : MDCourt := { c with team1_score := s1, team2_score := s2,
                                         completed := true }
            let rd1 : MDRound := { rd with courts := rd.courts.set ci c1 }
            let f1 := md_update_team c.team1.name s1 s2 round_num c.team2.name st.stats
            let f2 := md_update_team c.team2.name s2 s1 round_num c.team1.name f1
            let f3 := md_update_winloss c.team1.name c.team2.name s1 s2 f2
            (true, { st with
              session_rounds := st.session_rounds.set (round_num - 1) rd1,
              stats := f3 })

/-- A mixed-doubles ranking entry (mixed_doubles_league.py lines
255-266).  The floating-point `win_pct` display field is omitted. -/
structure MDRankEntry where
  team : String
  player1 : String
  player2 : String
  wins : Nat
  losses : Nat
  points : Nat
  points_against : Nat
  differential : Int
  games_played : Nat
deriving DecidableEq

/-- The entry built for one team by `MixedDoublesLeague.get_rankings`. -/
def md_mk_entry (stats : String → TeamStats) (t : Team) : MDRankEntry :=
  let s := stats t.name
  { team := t.name, player1 := t.player1, player2 := t.player2,
    wins := s.wins, losses := s.losses, points := s.total_points,
    points_against := s.total_points_against,
    differential := (s.total_points : Int) - (s.total_points_against : Int),
    games_played := s.games_played }

/-- The stable descending comparison realising
`sort(key=lambda x: (x['wins'], x['differential']), reverse=True)`
(mixed_doubles_league.py line 269): points are not part of the key. -/
def md_rank_key_le (a b : MDRankEntry) : Bool :=
  decide (b.wins < a.wins ∨ (b.wins = a.wins ∧ b.differential ≤ a.differential))

/-- `MixedDoublesLeague.get_rankings` (mixed_doubles_league.py lines
244-271). -/
def md_get_rankings (st : MDState) : List MDRankEntry :=
  pysort md_rank_key_le (st.teams.map (md_mk_entry st.stats))

/-- Engine state of the historical `LadderLeague`
(ladder_league_old.py lines 24-29). -/
structure OldState where
  players : List String
  match_history : List (List String)
  court_history : List (String × Nat)
  num_courts : Nat

/-- One court of the historical variant (ladder_league_old.py lines
101-104). -/
structure OldCourt where
  court : Nat
  players : List String
deriving DecidableEq

/-- `LadderLeague.get_matchup_count` (ladder_league_old.py lines 43-48). -/
def old_matchup_count (st : OldState) (p1 p2 : String) : Nat :=
  st.match_history.countP (fun m => decide (p1 ∈ m ∧ p2 ∈ m))

/-- `LadderLeague.get_court_count` (ladder_league_old.py lines 50-55). -/
def old_court_count (st : OldState) (p : String) (c : Nat) : Nat :=
  st.court_history.countP (fun rec => decide (rec.1 = p ∧ rec.2 = c))

/-- The greedy cost of adding `p` to a partially built court
(ladder_league_old.py lines 84-90): 10 per prior matchup with a player
already placed, plus 5 per prior appearance on this court number. -/
def old_cost (st : OldState) (chosen : List String) (court_num : Nat)
    (p : String) : Nat :=
  (chosen.map (fun q => old_matchup_count st p q)).sum * 10 +
    old_court_count st p court_num * 5

/-- The `best_player` scan (ladder_league_old.py lines 81-94): first
minimum under strict improvement. -/
def old_pick_best (avail : List String) (cost : String → Nat) : Option String :=
  avail.foldl (fun best p =>
    match best with
    | none => some p
    | some b => if cost p < cost b then some p else best) none

/-- The inner `for _ in range(4)` loop of the old generator
(ladder_league_old.py lines 77-98): greedily pick four players for the
court, removing each from the available pool. -/
def old_pick4 (st : OldState) (court_num : Nat) (avail : List String) :
    List String × List String :=
  (List.range 4).foldl (fun acc _ =>
    if acc.2.isEmpty then acc
    else
      match old_pick_best acc.2 (old_cost st acc.1 court_num) with
      | none => acc
      | some p => (acc.1 ++ [p], acc.2.erase p)) ([], avail)

/-- The bounded `while` loop of the old generator (ladder_league_old.py
lines 68-104); the fuel argument models the `attempts < max_attempts`
cap of 1000 iterations. -/
def old_greedy (st : OldState) : Nat → List OldCourt → List String → List OldCourt
  | 0, courts, _ => courts
  | fuel + 1, courts, avail =>
    if courts.length < st.num_courts ∧ 4 ≤ avail.length then
      let court_num := courts.length + 1
      let picked := old_pick4 st court_num avail
      let courts1 := if picked.1.length = 4
        then courts ++ [{ court := court_num, players := picked.1 }] else courts
      old_greedy st fuel courts1 picked.2
    else courts

/-- All unordered player pairs of a court, in the order the nested
`for i / for j in range(i+1, ...)` loops append them
(ladder_league_old.py lines 109-112). -/
def old_pairs : List String → List (List String)
  | [] => []
  | p :: rest => rest.map (fun q => [p, q]) ++ old_pairs rest

/-- `LadderLeague.generate_round` (ladder_league_old.py lines 57-120):
reject fewer than 8 players; run the greedy filler over the shuffled
roster (`σ`); if fewer than `num_courts` courts were filled report the
shortfall with the state untouched; otherwise commit the matchup and
court histories. -/
def old_generate_round (st : OldState) (σ : List String → List String) :
    Option (List OldCourt) × Option String × OldState :=
  if st.players.length < 8 then
    (none, some "Need at least 8 players (2 per court x 4 courts)", st)
  else
    let courts := old_greedy st 1000 [] (σ st.players)
    if courts.length < st.num_courts then
      (none, some ("Could only fill " ++ toString courts.length ++
        " courts. Need more players."), st)
    else
      (some courts, none,
        { st with
          match_history := st.match_history ++
            (courts.map (fun c => old_pairs c.players)).flatten
          court_history := st.court_history ++
            (courts.map (fun c => c.players.map (fun p => (p, c.court)))).flatten })

/-- The minimum games-played across a roster, as described by the spec's
equalized ranking mode ("find minGames = minimum games-played across all
participants"). -/
def min_games (players : List String) (stats : String → PlayerStats) : Nat :=
  match players with
  | [] => 0
  | p :: rest => rest.foldl (fun m q => min m (stats q).games_played)
      (stats p).games_played

/-- The points a player would be credited under the spec's equalized
ranking mode: the sum of the `points_for` of their first `min_games`
recorded game entries, in recorded order.  This definition follows the
specification's words and is compared against the implemented
`rr_get_rankings`, which has no such truncation. -/
def equalized_points (players : List String) (stats : String → PlayerStats)
    (p : String) : Nat :=
  (((stats p).game_scores.take (min_games players stats)).map
    (fun g => g.points_for)).sum

/-- The claim that the round-robin `get_rankings` implements the spec's
equalized counting: every produced entry's points equal the sum of the
first `min_games` recorded entries of that player. -/
def rr_rankings_equalized_claim : Prop :=
  ∀ (players : List String) (stats : String → PlayerStats),
    ∀ e ∈ rr_get_rankings players stats,
      e.points = equalized_points players stats e.player

/-- Fresh stats for a newly added doubles team
(mixed_doubles_league.py lines 54-63). -/
def initTeamStats : TeamStats :=
  { games_played := 0, wins := 0, losses := 0, total_points := 0,
    total_points_against := 0, rounds_sat_out := 0, last_sat_out_round := -2,
    game_scores := [] }

/-- The default tier-to-court map of `SeededLadderLeague.__init__`
(seeded_ladder_league.py lines 38-43). -/
def default_tier_courts : Nat → Option (List Nat) := fun t =>
  if t = 1 then some [4]
  else if t = 2 then some [3]
  else if t = 3 then some [2]
  else if t = 4 then some [1]
  else none

/-! ### Concrete fixture states used by the closed witness and
counterexample theorems -/

def stC1rr : RRState :=
  { players := ["A", "B", "C", "D"], session_rounds := [],
    stats := fun _ => initStats }

def rdC1rr : Round :=
  { round_number := 1, courts := [mk_court_data 1 ["A", "B", "C", "D"]],
    sitting_players := [] }

def stC1sl : SLState :=
  { players := ["A"], session_rounds := [], stats := fun _ => initSLStats,
    tiers := fun _ => some 4, is_seeding_session := false,
    tier_court_assignments := default_tier_courts }

def rdC1sl : Round :=
  { round_number := 1, courts := [], sitting_players := ["A"] }

def teamAB : Team := { name := "A & B", player1 := "A", player2 := "B" }

def teamCD : Team := { name := "C & D", player1 := "C", player2 := "D" }

def stC1md : MDState :=
  { teams := [teamAB, teamCD], session_rounds := [],
    stats := fun _ => initTeamStats }

def rdC1md : MDRound :=
  { round_number := 1,
    courts := [{ court := 1, team1 := teamAB, team2 := teamCD,
                 team1_score := 0, team2_score := 0, completed := false }],
    sitting_teams := [] }

def pl5 : List String := ["A", "B", "C", "D", "E"]

/-- Five fresh players: everyone is eligible to sit in round 1. -/
def stC6rr : RRState :=
  { players := pl5, session_rounds := [], stats := fun _ => initStats }

/-- The round generated from `stC6rr` with identity shuffles. -/
def rdC6rr : Round :=
  { round_number := 1, courts := [mk_court_data 1 ["B", "C", "D", "E"]],
    sitting_players := ["A"] }

/-- Everybody sat out round 1, so nobody is eligible to sit in round 2. -/
def statsIneligible : String → PlayerStats :=
  fun _ => { initStats with last_sat_out_round := 1 }

/-- All ineligible for round 2; player A has by far the most games. -/
def statsC7 : String → PlayerStats := fun p =>
  if p = "A" then { initStats with last_sat_out_round := 1, games_played := 5 }
  else { initStats with last_sat_out_round := 1 }

/-- Seeded-variant counterpart of `statsC7`. -/
def statsC7sl : String → SLStats := fun p =>
  if p = "A" then { initSLStats with last_sat_out_round := 1, games_played := 5 }
  else { initSLStats with last_sat_out_round := 1 }

/-- A seeded-ladder state with one uncompleted match on court 1. -/
def stC2 : SLState :=
  { players := ["A", "B", "C", "D"],
    session_rounds := [⟨1, [mk_court_data 1 ["A", "B", "C", "D"]], []⟩],
    stats := fun _ => initSLStats, tiers := fun _ => some 4,
    is_seeding_session := false,
    tier_court_assignments := default_tier_courts }

/-- `stC2` after the match is recorded 11-7 once. -/
def stC2b : SLState := (sl_record_game_score stC2 1 1 11 7 none none).2

/-- A tiered-session state with only three players (below the one-court
minimum of four). -/
def stC3 : SLState :=
  { players := ["A", "B", "C"], session_rounds := [],
    stats := fun _ => initSLStats, tiers := fun _ => some 4,
    is_seeding_session := false,
    tier_court_assignments := default_tier_courts }

def stC3rr : RRState :=
  { players := ["A", "B", "C"], session_rounds := [],
    stats := fun _ => initStats }

def stC3seed : SLState :=
  { players := ["A", "B", "C"], session_rounds := [],
    stats := fun _ => initSLStats, tiers := fun _ => some 4,
    is_seeding_session := true,
    tier_court_assignments := default_tier_courts }

def stC3old : OldState :=
  { players := ["A", "B", "C", "D", "E", "F", "G"], match_history := [],
    court_history := [], num_courts := 4 }

/-- A round-robin state with one uncompleted match on court 1. -/
def stC5 : RRState :=
  { players := ["A", "B", "C", "D"], session_rounds := [rdC1rr],
    stats := fun _ => initStats }

/-- A mixed-doubles state with one uncompleted match on court 1. -/
def stC5md : MDState :=
  { teams := [teamAB, teamCD], session_rounds := [rdC1md],
    stats := fun _ => initTeamStats }

/-- Player A has two recorded games (11-0 twice), player B one (5-11). -/
def statsC4 : String → PlayerStats := fun p =>
  if p = "A" then
    { games_played := 2, wins := 2, losses := 0, total_points := 22,
      total_points_against := 0, rounds_sat_out := 0, last_sat_out_round := -2,
      game_scores := [⟨1, 11, 0⟩, ⟨2, 11, 0⟩] }
  else
    { games_played := 1, wins := 0, losses := 1, total_points := 5,
      total_points_against := 11, rounds_sat_out := 0, last_sat_out_round := -2,
      game_scores := [⟨1, 5, 11⟩] }

/-- Two teams with equal wins and equal differential but different point
totals: team CD has 20 points, team AB only 10. -/
def statsC8 : String → TeamStats := fun n =>
  if n = "A & B" then
    { games_played := 1, wins := 0, losses := 1, total_points := 10,
      total_points_against := 10, rounds_sat_out := 0, last_sat_out_round := -2,
      game_scores := [] }
  else
    { games_played := 1, wins := 0, losses := 1, total_points := 20,
      total_points_against := 20, rounds_sat_out := 0, last_sat_out_round := -2,
      game_scores := [] }

def stC8 : MDState :=
  { teams := [teamAB, teamCD], session_rounds := [], stats := statsC8 }

def namesC9 : List String :=
  ["A", "B", "C", "D", "E", "F", "G", "H", "I", "J", "K", "L", "M", "N", "O", "P"]

/-- Sixteen players, four per tier (tier 1 = A-D, ... tier 4 = M-P), with
pairwise distinct point totals so each tier has a strict internal order. -/
def stC9 : SLState :=
  { players := namesC9, session_rounds := [],
    stats := fun p => { initSLStats with total_points := namesC9.indexOf p },
    tiers := fun p => some (1 + namesC9.indexOf p / 4),
    is_seeding_session := false,
    tier_court_assignments := default_tier_courts }

def slEmpty : SLState :=
  { players := [], session_rounds := [], stats := fun _ => initSLStats,
    tiers := fun _ => none, is_seeding_session := true,
    tier_court_assignments := default_tier_courts }

def stC10 : SLState := (sl_add_player slEmpty "A").2

/-- The claim (C7 as frozen) that the round-robin selector's forced fill
is prioritized by highest games played: whenever an ineligible `p` is
selected while an ineligible `q` stays unselected, `p` must have at
least as many games — for every shuffle the `random.shuffle` call could
produce. -/
def rr_forced_fill_by_games_claim : Prop :=
  ∀ (players : List String) (stats : String → PlayerStats) (r : Nat)
    (σ : List String → List String), (∀ l, (σ l).Perm l) →
    ∀ p q : String, p ∈ rr_select_sitting players stats r σ → q ∈ players →
      q ∉ rr_select_sitting players stats r σ →
      can_sit_out (stats p).last_sat_out_round r = false →
      can_sit_out (stats q).last_sat_out_round r = false →
      (stats q).games_played ≤ (stats p).games_played

/-- The claim (C8 as frozen, mixed-doubles part) that mixed-doubles
rankings are sorted by wins, then differential, then points, all
descending. -/
def md_rankings_sorted_claim : Prop :=
  ∀ st : MDState, (md_get_rankings st).Pairwise (fun a b =>
    b.wins < a.wins ∨ (a.wins = b.wins ∧ (b.differential < a.differential ∨
      (a.differential = b.differential ∧ b.points ≤ a.points))))

/-! ### Generic list facts used throughout -/

theorem pysort_perm {α : Type} (le : α → α → Bool) (l : List α) :
    (pysort le l).Perm l := List.perm_insertionSort _ l

theorem pysort_sorted {α : Type} (le : α → α → Bool)
    (htrans : ∀ a b c, le a b = true → le b c = true → le a c = true)
    (htot : ∀ a b, le a b = true ∨ le b a = true) (l : List α) :
    (pysort le l).Pairwise (fun a b => le a b = true) := by
  haveI : IsTotal α (fun a b => le a b = true) := ⟨htot⟩
  haveI : IsTrans α (fun a b => le a b = true) := ⟨htrans⟩
  exact List.sorted_insertionSort _ l

theorem pysort_mem {α : Type} (le : α → α → Bool) (l : List α) (a : α) :
    a ∈ pysort le l ↔ a ∈ l := (pysort_perm le l).mem_iff

theorem pysort_length {α : Type} (le : α → α → Bool) (l : List α) :
    (pysort le l).length = l.length := (pysort_perm le l).length_eq

theorem length_filter_pos_neg {α : Type} (q : α → Bool) (l : List α) :
    (l.filter q).length + (l.filter (fun a => !q a)).length = l.length := by
  induction l with
  | nil => rfl
  | cons a t ih =>
    by_cases h : q a <;> simp [List.filter_cons, h] <;> omega

theorem filter_mem_perm {l s : List String} (hl : l.Nodup) (hs : s.Nodup)
    (hsub : ∀ a ∈ s, a ∈ l) :
    (l.filter (fun p => decide (p ∈ s))).Perm s := by
  refine (List.perm_ext_iff_of_nodup (hl.filter _) hs).2 ?_
  intro a
  simp only [List.mem_filter, decide_eq_true_eq]
  exact ⟨fun h => h.2, fun h => ⟨hsub a h, h⟩⟩

theorem length_filter_not_mem {l s : List String} (hl : l.Nodup) (hs : s.Nodup)
    (hsub : ∀ a ∈ s, a ∈ l) :
    (l.filter (fun p => decide (p ∉ s))).length = l.length - s.length := by
  have hpred : (fun p => decide (p ∉ s)) = fun p => !(decide (p ∈ s)) := by
    funext p; simp [decide_not]
  have h1 : (l.filter (fun p => decide (p ∈ s))).length = s.length :=
    (filter_mem_perm hl hs hsub).length_eq
  have h2 := length_filter_pos_neg (fun p => decide (p ∈ s)) l
  rw [hpred]
  omega

/-! ### Properties of the sit-out selection skeleton -/

theorem sit_sorted_perm (pool : List String) (elig : String → Bool)
    (score : String → Int) :
    (sit_sorted pool elig score).Perm
      ((pool.filter elig).map (fun p => (p, score p))) :=
  pysort_perm _ _

theorem sit_pre_subset {pool : List String} {elig : String → Bool}
    {score : String → Int} {n : Nat} {a : String}
    (h : a ∈ sit_pre pool elig score n) : a ∈ pool.filter elig := by
  simp only [sit_pre, List.mem_map] at h
  obtain ⟨pr, hpr, rfl⟩ := h
  have : pr ∈ sit_sorted pool elig score := List.take_sublist _ _ |>.mem hpr
  have := (sit_sorted_perm pool elig score).mem_iff.1 this
  simp only [List.mem_map] at this
  obtain ⟨p, hp, rfl⟩ := this
  exact hp

theorem sit_pre_length (pool : List String) (elig : String → Bool)
    (score : String → Int) (n : Nat) :
    (sit_pre pool elig score n).length = min n (pool.filter elig).length := by
  simp [sit_pre, sit_sorted, pysort_length]

theorem sit_sorted_fst_perm (pool : List String) (elig : String → Bool)
    (score : String → Int) :
    ((sit_sorted pool elig score).map Prod.fst).Perm (pool.filter elig) := by
  have h1 := (sit_sorted_perm pool elig score).map Prod.fst
  rw [List.map_map] at h1
  have h2 : (pool.filter elig).map (Prod.fst ∘ fun p => (p, score p)) =
      pool.filter elig := by
    simp [Function.comp_def]
  rwa [h2] at h1

theorem sit_pre_nodup {pool : List String} (elig : String → Bool)
    (score : String → Int) (n : Nat) (hp : pool.Nodup) :
    (sit_pre pool elig score n).Nodup := by
  have h2 : ((sit_sorted pool elig score).map Prod.fst).Nodup :=
    (sit_sorted_fst_perm pool elig score).nodup_iff.2 (hp.filter _)
  have h3 : List.Sublist (sit_pre pool elig score n)
      ((sit_sorted pool elig score).map Prod.fst) :=
    (List.take_sublist _ _).map _
  exact h2.sublist h3

theorem elig_mem_sit_pre {pool : List String} {elig : String → Bool}
    {score : String → Int} {n : Nat}
    (hshort : (sit_pre pool elig score n).length < n) {q : String}
    (hq : q ∈ pool) (he : elig q = true) : q ∈ sit_pre pool elig score n := by
  have hlen := sit_pre_length pool elig score n
  have hL : (pool.filter elig).length < n := by omega
  have hsortlen : (sit_sorted pool elig score).length = (pool.filter elig).length := by
    simp [sit_sorted, pysort_length]
  have htake : (sit_sorted pool elig score).take n = sit_sorted pool elig score :=
    List.take_of_length_le (by omega)
  have hqf : q ∈ pool.filter elig := List.mem_filter.2 ⟨hq, he⟩
  have : (q, score q) ∈ (pool.filter elig).map (fun p => (p, score p)) :=
    List.mem_map.2 ⟨q, hqf, rfl⟩
  have hmem : (q, score q) ∈ sit_sorted pool elig score :=
    (sit_sorted_perm pool elig score).mem_iff.2 this
  simp only [sit_pre, htake]
  exact List.mem_map.2 ⟨(q, score q), hmem, rfl⟩

theorem sit_select_of_zero {pool : List String} {elig : String → Bool}
    {score : String → Int} {fill : List String → List String} {n : Nat}
    (h : n = 0) : sit_select pool elig score n fill = [] := by
  simp only [sit_select, if_pos h]

theorem sit_select_of_forced {pool : List String} {elig : String → Bool}
    {score : String → Int} {fill : List String → List String} {n : Nat}
    (h0 : n ≠ 0) (h : (sit_pre pool elig score n).length < n) :
    sit_select pool elig score n fill =
      sit_pre pool elig score n ++
        (fill (pool.filter (fun p => decide (p ∉ sit_pre pool elig score n)))).take
          (n - (sit_pre pool elig score n).length) := by
  simp only [sit_select, if_neg h0, if_pos h]

theorem sit_select_of_enough {pool : List String} {elig : String → Bool}
    {score : String → Int} {fill : List String → List String} {n : Nat}
    (h0 : n ≠ 0) (h : ¬(sit_pre pool elig score n).length < n) :
    sit_select pool elig score n fill = sit_pre pool elig score n := by
  simp only [sit_select, if_neg h0, if_neg h]

theorem sit_select_subset {pool : List String} {elig : String → Bool}
    {score : String → Int} {n : Nat} {fill : List String → List String}
    (hf : ∀ l, (fill l).Perm l) {a : String}
    (h : a ∈ sit_select pool elig score n fill) : a ∈ pool := by
  by_cases h0 : n = 0
  · rw [sit_select_of_zero h0] at h
    simp at h
  · by_cases hs : (sit_pre pool elig score n).length < n
    · rw [sit_select_of_forced h0 hs] at h
      rcases List.mem_append.1 h with h1 | h1
      · exact (List.mem_filter.1 (sit_pre_subset h1)).1
      · have h2 := List.take_sublist _ _ |>.mem h1
        have h3 := (hf _).mem_iff.1 h2
        exact (List.mem_filter.1 h3).1
    · rw [sit_select_of_enough h0 hs] at h
      exact (List.mem_filter.1 (sit_pre_subset h)).1

theorem sit_select_nodup {pool : List String} {elig : String → Bool}
    {score : String → Int} {n : Nat} {fill : List String → List String}
    (hp : pool.Nodup) (hf : ∀ l, (fill l).Perm l) :
    (sit_select pool elig score n fill).Nodup := by
  by_cases h0 : n = 0
  · rw [sit_select_of_zero h0]
    exact List.nodup_nil
  · by_cases hs : (sit_pre pool elig score n).length < n
    · rw [sit_select_of_forced h0 hs]
      refine List.Nodup.append (sit_pre_nodup elig score n hp) ?_ ?_
      · have hfil : (pool.filter
            (fun p => decide (p ∉ sit_pre pool elig score n))).Nodup := hp.filter _
        have h1 := (hf (pool.filter
          (fun p => decide (p ∉ sit_pre pool elig score n)))).nodup_iff.2 hfil
        exact h1.sublist (List.take_sublist _ _)
      · intro a ha hafill
        have h2 := List.take_sublist _ _ |>.mem hafill
        have h3 := (hf _).mem_iff.1 h2
        have h4 := List.mem_filter.1 h3
        simp only [decide_eq_true_eq] at h4
        exact h4.2 ha
    · rw [sit_select_of_enough h0 hs]
      exact sit_pre_nodup elig score n hp

theorem sit_select_length {pool : List String} {elig : String → Bool}
    {score : String → Int} {n : Nat} {fill : List String → List String}
    (hn : n ≤ pool.length) (hp : pool.Nodup) (hf : ∀ l, (fill l).Perm l) :
    (sit_select pool elig score n fill).length = n := by
  by_cases h0 : n = 0
  · rw [sit_select_of_zero h0, h0]
    rfl
  · by_cases hs : (sit_pre pool elig score n).length < n
    · rw [sit_select_of_forced h0 hs]
      have hlenf : (fill (pool.filter
          (fun p => decide (p ∉ sit_pre pool elig score n)))).length =
          pool.length - (sit_pre pool elig score n).length := by
        rw [(hf _).length_eq]
        exact length_filter_not_mem hp (sit_pre_nodup elig score n hp)
          (fun a ha => (List.mem_filter.1 (sit_pre_subset ha)).1)
      have hpre := sit_pre_length pool elig score n
      simp only [List.length_append, List.length_take, hlenf]
      omega
    · rw [sit_select_of_enough h0 hs]
      have hpre := sit_pre_length pool elig score n
      omega

theorem sit_select_forced_trigger {pool : List String} {elig : String → Bool}
    {score : String → Int} {n : Nat} {fill : List String → List String}
    {p : String} (hmem : p ∈ sit_select pool elig score n fill)
    (hinelig : elig p = false) :
    (pool.filter elig).length < n ∧
      ∀ q ∈ pool, elig q = true → q ∈ sit_select pool elig score n fill := by
  have hnotpre : p ∉ sit_pre pool elig score n := by
    intro hc
    have h1 := (List.mem_filter.1 (sit_pre_subset hc)).2
    rw [hinelig] at h1
    exact Bool.false_ne_true h1
  by_cases h0 : n = 0
  · rw [sit_select_of_zero h0] at hmem
    simp at hmem
  · by_cases hs : (sit_pre pool elig score n).length < n
    · have hlen := sit_pre_length pool elig score n
      refine ⟨by omega, fun q hq he => ?_⟩
      rw [sit_select_of_forced h0 hs]
      exact List.mem_append.2 (Or.inl (elig_mem_sit_pre hs hq he))
    · rw [sit_select_of_enough h0 hs] at hmem
      exact absurd hmem hnotpre

theorem sit_select_fill_by_weight {pool : List String} {elig : String → Bool}
    {score : String → Int} {n : Nat} (wt : String → Nat) {p q : String}
    (hp : p ∈ sit_select pool elig score n
      (fun l => pysort (fun a b => decide (wt b ≤ wt a)) l))
    (hq : q ∈ pool)
    (hqn : q ∉ sit_select pool elig score n
      (fun l => pysort (fun a b => decide (wt b ≤ wt a)) l))
    (hpe : elig p = false) (hqe : elig q = false) :
    wt q ≤ wt p := by
  have hnotpre : ∀ x, elig x = false → x ∉ sit_pre pool elig score n := by
    intro x hx hc
    have h1 := (List.mem_filter.1 (sit_pre_subset hc)).2
    rw [hx] at h1
    exact Bool.false_ne_true h1
  by_cases h0 : n = 0
  · rw [sit_select_of_zero h0] at hp
    simp at hp
  · by_cases hs : (sit_pre pool elig score n).length < n
    · rw [sit_select_of_forced h0 hs] at hp hqn
      set pre := sit_pre pool elig score n with hpre
      set rem := pool.filter (fun x => decide (x ∉ pre)) with hrem
      set srt := pysort (fun a b => decide (wt b ≤ wt a)) rem with hsrt
      set k := n - pre.length with hk
      have hpmem : p ∈ srt.take k := by
        rcases List.mem_append.1 hp with h1 | h1
        · exact absurd h1 (hnotpre p hpe)
        · exact h1
      have hqrem : q ∈ rem := by
        rw [hrem]
        exact List.mem_filter.2 ⟨hq, by simpa using hnotpre q hqe⟩
      have hqsrt : q ∈ srt := by
        rw [hsrt]
        exact (pysort_mem _ _ _).2 hqrem
      have hqtd : q ∈ srt.take k ++ srt.drop k := by
        rw [List.take_append_drop]
        exact hqsrt
      have hqdrop : q ∈ srt.drop k := by
        rcases List.mem_append.1 hqtd with h1 | h1
        · exact absurd (List.mem_append.2 (Or.inr h1)) hqn
        · exact h1
      have hsorted : srt.Pairwise (fun a b => decide (wt b ≤ wt a) = true) := by
        rw [hsrt]
        exact pysort_sorted _
          (by intro a b c hab hbc; simp at hab hbc ⊢; omega)
          (by intro a b; simp; omega) rem
      have hsorted2 : (srt.take k ++ srt.drop k).Pairwise
          (fun a b => decide (wt b ≤ wt a) = true) := by
        rw [List.take_append_drop]
        exact hsorted
      have hrel := (List.pairwise_append.1 hsorted2).2.2
      have := hrel p hpmem q hqdrop
      simpa using this
    · rw [sit_select_of_enough h0 hs] at hp
      exact absurd hp (hnotpre p hpe)

/-! ### Properties of the court-slicing loops -/

theorem court_slices_full {α : Type} (size : Nat) (nums : List Nat) :
    ∀ l : List α, l.length = size * nums.length →
      ∀ s ∈ court_slices size nums l, s.2.length = size := by
  induction nums with
  | nil => intro l h s hs; simp [court_slices] at hs
  | cons c cs ih =>
    intro l h s hs
    have h' : l.length = size * cs.length + size := by
      rw [h, List.length_cons, Nat.mul_succ]
    simp only [court_slices, List.mem_cons] at hs
    rcases hs with rfl | hs
    · simp only [List.length_take]
      omega
    · exact ih (l.drop size) (by simp only [List.length_drop]; omega) s hs

theorem court_slices_sub {α : Type} (size : Nat) (nums : List Nat) :
    ∀ l : List α, ∀ s ∈ court_slices size nums l, ∀ x ∈ s.2, x ∈ l := by
  induction nums with
  | nil => intro l s hs; simp [court_slices] at hs
  | cons c cs ih =>
    intro l s hs x hx
    simp only [court_slices, List.mem_cons] at hs
    rcases hs with rfl | hs
    · exact List.take_subset _ _ hx
    · exact List.drop_subset _ _ (ih (l.drop size) s hs x hx)

theorem court_slices_countP {α : Type} [DecidableEq α] (size : Nat) (nums : List Nat) :
    ∀ l : List α, l.length = size * nums.length → l.Nodup → ∀ p : α,
      (court_slices size nums l).countP (fun s => decide (p ∈ s.2)) =
        if p ∈ l then 1 else 0 := by
  induction nums with
  | nil =>
    intro l h _ p
    have hl : l = [] := List.length_eq_zero.1 (by simpa using h)
    subst hl
    simp [court_slices]
  | cons c cs ih =>
    intro l h hnd p
    have h' : l.length = size * cs.length + size := by
      rw [h, List.length_cons, Nat.mul_succ]
    have hdl : (l.drop size).length = size * cs.length := by
      simp only [List.length_drop]; omega
    have hrec := ih (l.drop size) hdl (hnd.sublist (List.drop_sublist _ _)) p
    simp only [court_slices, List.countP_cons, hrec]
    have hsplit : l.take size ++ l.drop size = l := List.take_append_drop size l
    have hdisj : (l.take size).Disjoint (l.drop size) := by
      apply List.disjoint_of_nodup_append
      rw [hsplit]
      exact hnd
    by_cases h1 : p ∈ l.take size
    · have h2 : p ∉ l.drop size := fun hc => hdisj h1 hc
      have h3 : p ∈ l := by rw [← hsplit]; exact List.mem_append.2 (Or.inl h1)
      simp [h1, h2, h3]
    · by_cases h2 : p ∈ l.drop size
      · have h3 : p ∈ l := by rw [← hsplit]; exact List.mem_append.2 (Or.inr h2)
        simp [h1, h2, h3]
      · have h3 : p ∉ l := by
          rw [← hsplit]
          intro hc
          rcases List.mem_append.1 hc with hc | hc
          · exact h1 hc
          · exact h2 hc
        simp [h1, h2, h3]

theorem courts_of_slices_countP (slices : List (Nat × List String))
    (hfull : ∀ s ∈ slices, s.2.length = 4) (p : String) :
    (courts_of_slices slices).countP (fun c => decide (p ∈ c.players)) =
      slices.countP (fun s => decide (p ∈ s.2)) := by
  induction slices with
  | nil => rfl
  | cons s rest ih =>
    have hs : s.2.length = 4 := hfull s (List.mem_cons_self _ _)
    have hrest := ih (fun t ht => hfull t (List.mem_cons_of_mem _ ht))
    have hcons : courts_of_slices (s :: rest) =
        mk_court_data s.1 s.2 :: courts_of_slices rest := by
      simp only [courts_of_slices, List.filterMap_cons, if_pos hs]
    rw [hcons, List.countP_cons, List.countP_cons, hrest]
    rfl

theorem courts_of_slices_players (slices : List (Nat × List String)) :
    ∀ c ∈ courts_of_slices slices, ∃ s ∈ slices, c.players = s.2 := by
  intro c hc
  simp only [courts_of_slices, List.mem_filterMap] at hc
  obtain ⟨s, hs, he⟩ := hc
  by_cases h4 : s.2.length = 4
  · rw [if_pos h4] at he
    refine ⟨s, hs, ?_⟩
    cases he
    rfl
  · rw [if_neg h4] at he
    cases he

theorem leftover_of_slices_eq_nil {slices : List (Nat × List String)}
    (hfull : ∀ s ∈ slices, s.2.length = 4) :
    leftover_of_slices slices = [] := by
  induction slices with
  | nil => rfl
  | cons s rest ih =>
    have hs : s.2.length = 4 := hfull s (List.mem_cons_self _ _)
    have hrest := ih (fun t ht => hfull t (List.mem_cons_of_mem _ ht))
    simp only [leftover_of_slices, List.filterMap_cons, if_pos hs] at *
    exact hrest

/-- Core partition argument shared by the solo round generators: if a
sit-out list of the right length is removed from a duplicate-free pool
and the permuted remainder is sliced into groups of four, then every
pool member lands on exactly one court or in the sit-out list, and
nobody outside the pool appears anywhere. -/
theorem partition_core (pool sitting playing : List String) (nums : List Nat)
    (hp : pool.Nodup)
    (hsub : ∀ a ∈ sitting, a ∈ pool)
    (hsnd : sitting.Nodup)
    (hslen : sitting.length = pool.length - 4 * nums.length)
    (hn : 4 * nums.length ≤ pool.length)
    (hplay : playing.Perm (pool.filter (fun x => decide (x ∉ sitting)))) :
    playing.length = 4 * nums.length ∧
    (∀ s ∈ court_slices 4 nums playing, s.2.length = 4) ∧
    (∀ p, p ∈ pool →
      (courts_of_slices (court_slices 4 nums playing)).countP
        (fun c => decide (p ∈ c.players)) +
        (if p ∈ sitting then 1 else 0) = 1) ∧
    (∀ p, p ∉ pool →
      (courts_of_slices (court_slices 4 nums playing)).countP
        (fun c => decide (p ∈ c.players)) = 0 ∧ p ∉ sitting) := by
  have hfillen : (pool.filter (fun x => decide (x ∉ sitting))).length =
      pool.length - sitting.length :=
    length_filter_not_mem hp hsnd hsub
  have hplen : playing.length = 4 * nums.length := by
    rw [hplay.length_eq, hfillen]
    omega
  have hpnd : playing.Nodup := hplay.nodup_iff.2 (hp.filter _)
  have hfull := court_slices_full 4 nums playing hplen
  have hcount : ∀ p : String,
      (courts_of_slices (court_slices 4 nums playing)).countP
        (fun c => decide (p ∈ c.players)) = if p ∈ playing then 1 else 0 := by
    intro p
    rw [courts_of_slices_countP _ hfull p]
    exact court_slices_countP 4 nums playing hplen hpnd p
  refine ⟨hplen, hfull, ?_, ?_⟩
  · intro p hpool
    rw [hcount p]
    by_cases hsit : p ∈ sitting
    · have hnotf : p ∉ pool.filter (fun x => decide (x ∉ sitting)) := by
        intro hc
        have := List.mem_filter.1 hc
        simp only [decide_eq_true_eq] at this
        exact this.2 hsit
      have hnp : p ∉ playing := fun hc => hnotf (hplay.mem_iff.1 hc)
      simp [hnp, hsit]
    · have hf : p ∈ pool.filter (fun x => decide (x ∉ sitting)) :=
        List.mem_filter.2 ⟨hpool, by simpa using hsit⟩
      have hnp : p ∈ playing := hplay.mem_iff.2 hf
      simp [hnp, hsit]
  · intro p hpool
    have hnp : p ∉ playing := by
      intro hc
      exact hpool (List.mem_filter.1 (hplay.mem_iff.1 hc)).1
    constructor
    · rw [hcount p]
      simp [hnp]
    · exact fun hc => hpool (hsub p hc)

/-- Per-court membership of a team, matched to slice membership: for a
full two-team slice the built court holds exactly those two teams. -/
theorem md_courts_of_slices_countP (slices : List (Nat × List Team))
    (hfull : ∀ s ∈ slices, s.2.length = 2) (t : Team) :
    (md_courts_of_slices slices).countP
      (fun c => decide (c.team1 = t ∨ c.team2 = t)) =
      slices.countP (fun s => decide (t ∈ s.2)) := by
  induction slices with
  | nil => rfl
  | cons s rest ih =>
    have hs : s.2.length = 2 := hfull s (List.mem_cons_self _ _)
    have hrest := ih (fun u hu => hfull u (List.mem_cons_of_mem _ hu))
    obtain ⟨a, b, hab⟩ : ∃ a b, s.2 = [a, b] := by
      match hlist : s.2 with
      | [a, b] => exact ⟨a, b, rfl⟩
      | [] => rw [hlist] at hs; simp at hs
      | [a] => rw [hlist] at hs; simp at hs
      | a :: b :: c :: l => rw [hlist] at hs; simp at hs
    have hcons : md_courts_of_slices (s :: rest) =
        { court := s.1, team1 := a, team2 := b, team1_score := 0,
          team2_score := 0, completed := false } :: md_courts_of_slices rest := by
      simp only [md_courts_of_slices, List.filterMap_cons, hab]
    rw [hcons, List.countP_cons, List.countP_cons, hrest, hab]
    have hiff : (t = a ∨ t = b) ↔ t ∈ [a, b] := by simp
    by_cases h1 : t = a ∨ t = b
    · have h2 : t ∈ [a, b] := hiff.1 h1
      have h1' : a = t ∨ b = t := by
        rcases h1 with h | h
        · exact Or.inl h.symm
        · exact Or.inr h.symm
      simp [h1', h2]
    · have h2 : t ∉ [a, b] := fun hc => h1 (hiff.2 hc)
      have h1' : ¬(a = t ∨ b = t) := by
        intro hc
        rcases hc with h | h
        · exact h1 (Or.inl h.symm)
        · exact h1 (Or.inr h.symm)
      simp [h1', h2]

/-- Partition argument for the mixed-doubles generator, at team level. -/
theorem partition_core_md (teams : List Team) (sitting : List String)
    (playing : List Team) (nums : List Nat)
    (hnames : (teams.map (fun t => t.name)).Nodup)
    (hsub : ∀ a ∈ sitting, a ∈ teams.map (fun t => t.name))
    (hsnd : sitting.Nodup)
    (hslen : sitting.length = teams.length - 2 * nums.length)
    (hn : 2 * nums.length ≤ teams.length)
    (hplay : playing.Perm (teams.filter (fun t => decide (t.name ∉ sitting)))) :
    ∀ t ∈ teams,
      (md_courts_of_slices (court_slices 2 nums playing)).countP
        (fun c => decide (c.team1 = t ∨ c.team2 = t)) +
        (if t.name ∈ sitting then 1 else 0) = 1 := by
  have hteamnd : teams.Nodup := List.Nodup.of_map _ hnames
  have hmapfil : (teams.map (fun t => t.name)).filter
      (fun x => decide (x ∉ sitting)) =
      (teams.filter (fun t => decide (t.name ∉ sitting))).map (fun t => t.name) :=
    List.filter_map (fun t => t.name) teams
  have hfillen : (teams.filter (fun t => decide (t.name ∉ sitting))).length =
      teams.length - sitting.length := by
    have h1 := length_filter_not_mem hnames hsnd hsub
    rw [hmapfil] at h1
    simpa using h1
  have hplen : playing.length = 2 * nums.length := by
    rw [hplay.length_eq, hfillen]
    have := List.length_map teams (fun t => t.name)
    omega
  have hpnd : playing.Nodup := hplay.nodup_iff.2 (hteamnd.filter _)
  have hfull := court_slices_full 2 nums playing hplen
  intro t ht
  rw [md_courts_of_slices_countP _ hfull t,
    court_slices_countP 2 nums playing hplen hpnd t]
  by_cases hsit : t.name ∈ sitting
  · have hnotf : t ∉ teams.filter (fun u => decide (u.name ∉ sitting)) := by
      intro hc
      have := List.mem_filter.1 hc
      simp only [decide_eq_true_eq] at this
      exact this.2 hsit
    have hnp : t ∉ playing := fun hc => hnotf (hplay.mem_iff.1 hc)
    simp [hnp, hsit]
  · have hf : t ∈ teams.filter (fun u => decide (u.name ∉ sitting)) :=
      List.mem_filter.2 ⟨ht, by simpa using hsit⟩
    have hnp : t ∈ playing := hplay.mem_iff.2 hf
    simp [hnp, hsit]

theorem rr_sitting_facts (players : List String) (stats : String → PlayerStats)
    (r : Nat) (σ : List String → List String) (hσ : ∀ l, (σ l).Perm l)
    (hnd : players.Nodup) :
    (∀ a ∈ rr_select_sitting players stats r σ, a ∈ players) ∧
    (rr_select_sitting players stats r σ).Nodup ∧
    (rr_select_sitting players stats r σ).length =
      players.length - get_active_courts players.length * 4 := by
  unfold rr_select_sitting
  exact ⟨fun a ha => sit_select_subset hσ ha, sit_select_nodup hnd hσ,
    sit_select_length (Nat.sub_le _ _) hnd hσ⟩

theorem sl_sitting_facts (pool : List String) (stats : String → SLStats)
    (needed r : Nat) (hnd : pool.Nodup) :
    (∀ a ∈ sl_select_sitting pool stats needed r, a ∈ pool) ∧
    (sl_select_sitting pool stats needed r).Nodup ∧
    (sl_select_sitting pool stats needed r).length = pool.length - needed := by
  have hf : ∀ l : List String, (pysort (fun a b =>
      decide ((stats b).games_played ≤ (stats a).games_played)) l).Perm l :=
    fun l => pysort_perm _ l
  unfold sl_select_sitting
  exact ⟨fun a ha => sit_select_subset hf ha, sit_select_nodup hnd hf,
    sit_select_length (Nat.sub_le _ _) hnd hf⟩

theorem md_sitting_facts (names : List String) (stats : String → TeamStats)
    (r : Nat) (σ : List String → List String) (hσ : ∀ l, (σ l).Perm l)
    (hnd : names.Nodup) :
    (∀ a ∈ md_select_sitting names stats r σ, a ∈ names) ∧
    (md_select_sitting names stats r σ).Nodup ∧
    (md_select_sitting names stats r σ).length =
      names.length - md_get_active_courts names.length * 2 := by
  unfold md_select_sitting
  exact ⟨fun a ha => sit_select_subset hσ ha, sit_select_nodup hnd hσ,
    sit_select_length (Nat.sub_le _ _) hnd hσ⟩

theorem rr_round_partition (st : RRState) (σsit σplay : List String → List String)
    (hnd : st.players.Nodup) (hσ1 : ∀ l, (σsit l).Perm l)
    (hσ2 : ∀ l, (σplay l).Perm l) (rd : Round)
    (hgen : (rr_generate_round st σsit σplay).1 = some rd) :
    ∀ p ∈ st.players,
      rd.courts.countP (fun c => decide (p ∈ c.players)) +
        (if p ∈ rd.sitting_players then 1 else 0) = 1 := by
  by_cases hguard : st.players.length < get_active_courts st.players.length * 4
  · simp only [rr_generate_round, if_pos hguard] at hgen
    cases hgen
  · simp only [rr_generate_round, if_neg hguard] at hgen
    set r := st.session_rounds.length + 1 with hr
    set sitting := rr_select_sitting st.players st.stats r σsit with hsit
    set playing := σplay (st.players.filter (fun p => decide (p ∉ sitting)))
      with hplaying
    set nums := (List.range (get_active_courts st.players.length)).map
      (fun i => i + 1) with hnums
    have hrd : rd =
        { round_number := r
          courts := courts_of_slices (court_slices 4 nums playing)
          sitting_players := sitting } :=
      (Option.some.inj hgen).symm
    have hnl : nums.length = get_active_courts st.players.length := by
      rw [hnums]
      simp
    have hfacts := rr_sitting_facts st.players st.stats r σsit hσ1 hnd
    have hcore := partition_core st.players sitting playing nums hnd
      hfacts.1 hfacts.2.1
      (by rw [hfacts.2.2, hnl]; omega)
      (by rw [hnl]; omega)
      (hσ2 _)
    intro p hp
    rw [hrd]
    exact hcore.2.2.1 p hp

/-- Either a tier contributes no courts and all of its members sit
(`tier_players` too small, or no active assigned court), or — with the
shuffles being permutations — its short-slice and surplus lists are
empty and the contribution is exactly the built courts plus the selected
sitters. -/
theorem sl_tier_contribution_spec (st : SLState) (r : Nat)
    (σ : Nat → List String → List String) (t total_courts : Nat)
    (hσ : ∀ tn l, (σ tn l).Perm l) (hnd : st.players.Nodup) :
    sl_tier_contribution st r σ t total_courts = ([], get_tier_players st t) ∨
    ∃ (nums : List Nat) (needed : Nat),
      needed = 4 * nums.length ∧
      needed ≤ (get_tier_players st t).length ∧
      sl_tier_contribution st r σ t total_courts =
        (courts_of_slices (court_slices 4 nums
          (σ t ((get_tier_players st t).filter (fun p =>
            decide (p ∉ sl_select_sitting (get_tier_players st t) st.stats needed r))))),
         sl_select_sitting (get_tier_players st t) st.stats needed r) := by
  have hpoolnd : (get_tier_players st t).Nodup := hnd.filter _
  set pool := get_tier_players st t with hpool
  by_cases h1 : pool.length < 4
  · left
    simp only [sl_tier_contribution, if_pos h1]
  · by_cases h2 : ((st.tier_court_assignments t).getD []).filter
        (fun c => decide (c ≤ total_courts)) = []
    · left
      simp only [sl_tier_contribution, if_neg h1, h2]
      simp
    · set active := ((st.tier_court_assignments t).getD []).filter
        (fun c => decide (c ≤ total_courts)) with hactive
      set cu := min active.length (pool.length / 4) with hcu
      by_cases h3 : cu = 0
      · left
        simp only [sl_tier_contribution, if_neg h1]
        rw [← hactive, if_neg h2, ← hcu, if_pos h3]
      · right
        set needed := cu * 4 with hneeded
        set sitting := sl_select_sitting pool st.stats needed r with hsit
        set playing := σ t (pool.filter (fun p => decide (p ∉ sitting)))
          with hplaying
        have hculen : cu ≤ active.length := by rw [hcu]; omega
        have hnumlen : (active.take cu).length = cu := by
          simp [List.length_take]
          omega
        have hneedle : needed ≤ pool.length := by
          have hdm : pool.length / 4 * 4 ≤ pool.length := Nat.div_mul_le_self _ _
          have : cu ≤ pool.length / 4 := by rw [hcu]; omega
          rw [hneeded]
          calc cu * 4 ≤ pool.length / 4 * 4 := by omega
            _ ≤ pool.length := hdm
        have hfacts := sl_sitting_facts pool st.stats needed r hpoolnd
        have hplaylen : playing.length = needed := by
          rw [hplaying, (hσ t _).length_eq,
            length_filter_not_mem hpoolnd hfacts.2.1 hfacts.1, hfacts.2.2]
          omega
        have hplay4 : playing.length = 4 * (active.take cu).length := by
          rw [hplaylen, hnumlen, hneeded]
          omega
        have hfull := court_slices_full 4 (active.take cu) playing hplay4
        have hleft : leftover_of_slices (court_slices 4 (active.take cu) playing) =
            [] := leftover_of_slices_eq_nil hfull
        have hextra : ¬ needed < playing.length := by omega
        refine ⟨active.take cu, needed, by rw [hneeded, hnumlen]; omega, hneedle, ?_⟩
        simp only [sl_tier_contribution, if_neg h1]
        rw [← hactive, if_neg h2, ← hcu, if_neg h3, ← hneeded, ← hsit, ← hplaying,
          hleft, if_neg hextra]
        simp

/-- Within one tier, the contribution of `_generate_tiered_round`
partitions the tier pool, and mentions nobody outside it. -/
theorem sl_tier_partition (st : SLState) (r : Nat)
    (σ : Nat → List String → List String) (t total_courts : Nat)
    (hσ : ∀ tn l, (σ tn l).Perm l) (hnd : st.players.Nodup) :
    (∀ p ∈ get_tier_players st t,
      (sl_tier_contribution st r σ t total_courts).1.countP
        (fun c => decide (p ∈ c.players)) +
        (if p ∈ (sl_tier_contribution st r σ t total_courts).2 then 1 else 0) = 1) ∧
    (∀ p, p ∉ get_tier_players st t →
      (sl_tier_contribution st r σ t total_courts).1.countP
        (fun c => decide (p ∈ c.players)) = 0 ∧
        p ∉ (sl_tier_contribution st r σ t total_courts).2) := by
  have hpoolnd : (get_tier_players st t).Nodup := hnd.filter _
  rcases sl_tier_contribution_spec st r σ t total_courts hσ hnd with h | h
  · rw [h]
    constructor
    · intro p hp
      simp [hp]
    · intro p hp
      exact ⟨by simp, hp⟩
  · obtain ⟨nums, needed, hneq, hle, heq⟩ := h
    rw [heq]
    have hfacts := sl_sitting_facts (get_tier_players st t) st.stats needed r hpoolnd
    have hcore := partition_core (get_tier_players st t)
      (sl_select_sitting (get_tier_players st t) st.stats needed r)
      (σ t ((get_tier_players st t).filter (fun p =>
        decide (p ∉ sl_select_sitting (get_tier_players st t) st.stats needed r))))
      nums hpoolnd hfacts.1 hfacts.2.1
      (by rw [hfacts.2.2]; omega)
      (by omega)
      (hσ t _)
    exact ⟨hcore.2.2.1, hcore.2.2.2⟩

theorem mem_get_tier_players {st : SLState} {p : String} {t : Nat} :
    p ∈ get_tier_players st t ↔ p ∈ st.players ∧ (st.tiers p).getD 2 = t := by
  simp [get_tier_players]

/-- The tiered generator partitions the roster: the per-tier pools
partition the players (every tier value being 1-4), and each pool is
partitioned by its own contribution. -/
theorem sl_tiered_partition (st : SLState)
    (σseed : List String → List String) (σ : Nat → List String → List String)
    (hnd : st.players.Nodup) (hσ : ∀ tn l, (σ tn l).Perm l)
    (htier : ∀ p ∈ st.players,
      1 ≤ (st.tiers p).getD 2 ∧ (st.tiers p).getD 2 ≤ 4)
    (hseed : st.is_seeding_session = false) (rd : Round)
    (hgen : (sl_generate_round st σseed σ).1 = some rd) :
    ∀ p ∈ st.players,
      rd.courts.countP (fun c => decide (p ∈ c.players)) +
        (if p ∈ rd.sitting_players then 1 else 0) = 1 := by
  set r := st.session_rounds.length + 1 with hr
  have hgen2 : (sl_generate_tiered_round st r σ).1 = some rd := by
    simp only [sl_generate_round, hseed] at hgen
    simpa using hgen
  simp only [sl_generate_tiered_round, sl_fin_round, List.map_cons, List.map_nil,
    List.flatten_cons, List.flatten_nil, List.append_nil] at hgen2
  have hrd := (Option.some.inj hgen2).symm
  intro p hp
  rw [hrd]
  simp only [List.countP_append, List.mem_append]
  have hpick : ∀ i : Nat, (st.tiers p).getD 2 = i → p ∈ get_tier_players st i :=
    fun i hi => mem_get_tier_players.2 ⟨hp, hi⟩
  have hnopick : ∀ i : Nat, (st.tiers p).getD 2 ≠ i → p ∉ get_tier_players st i :=
    fun i hi hc => hi (mem_get_tier_players.1 hc).2
  have hbounds := htier p hp
  have hcases : (st.tiers p).getD 2 = 1 ∨ (st.tiers p).getD 2 = 2 ∨
      (st.tiers p).getD 2 = 3 ∨ (st.tiers p).getD 2 = 4 := by omega
  rcases hcases with hc | hc | hc | hc
  · have hy := (sl_tier_partition st r σ 1 (get_active_courts st.players.length) hσ hnd).1 p (hpick 1 hc)
    have e2 := (sl_tier_partition st r σ 2 (get_active_courts st.players.length) hσ hnd).2 p (hnopick 2 (by omega))
    have e3 := (sl_tier_partition st r σ 3 (get_active_courts st.players.length) hσ hnd).2 p (hnopick 3 (by omega))
    have e4 := (sl_tier_partition st r σ 4 (get_active_courts st.players.length) hσ hnd).2 p (hnopick 4 (by omega))
    rw [e2.1, e3.1, e4.1]
    by_cases hm : p ∈ (sl_tier_contribution st r σ 1 (get_active_courts st.players.length)).2
    · rw [if_pos hm] at hy
      simp only [hm, e2.2, e3.2, e4.2, true_or, false_or, or_false, if_true]
      omega
    · rw [if_neg hm] at hy
      simp only [hm, e2.2, e3.2, e4.2, false_or, or_false]
      simp only [if_false]
      omega
  · have hy := (sl_tier_partition st r σ 2 (get_active_courts st.players.length) hσ hnd).1 p (hpick 2 hc)
    have e1 := (sl_tier_partition st r σ 1 (get_active_courts st.players.length) hσ hnd).2 p (hnopick 1 (by omega))
    have e3 := (sl_tier_partition st r σ 3 (get_active_courts st.players.length) hσ hnd).2 p (hnopick 3 (by omega))
    have e4 := (sl_tier_partition st r σ 4 (get_active_courts st.players.length) hσ hnd).2 p (hnopick 4 (by omega))
    rw [e1.1, e3.1, e4.1]
    by_cases hm : p ∈ (sl_tier_contribution st r σ 2 (get_active_courts st.players.length)).2
    · rw [if_pos hm] at hy
      simp only [hm, e1.2, e3.2, e4.2, true_or, false_or, or_false, if_true]
      omega
    · rw [if_neg hm] at hy
      simp only [hm, e1.2, e3.2, e4.2, false_or, or_false]
      simp only [if_false]
      omega
  · have hy := (sl_tier_partition st r σ 3 (get_active_courts st.players.length) hσ hnd).1 p (hpick 3 hc)
    have e1 := (sl_tier_partition st r σ 1 (get_active_courts st.players.length) hσ hnd).2 p (hnopick 1 (by omega))
    have e2 := (sl_tier_partition st r σ 2 (get_active_courts st.players.length) hσ hnd).2 p (hnopick 2 (by omega))
    have e4 := (sl_tier_partition st r σ 4 (get_active_courts st.players.length) hσ hnd).2 p (hnopick 4 (by omega))
    rw [e1.1, e2.1, e4.1]
    by_cases hm : p ∈ (sl_tier_contribution st r σ 3 (get_active_courts st.players.length)).2
    · rw [if_pos hm] at hy
      simp only [hm, e1.2, e2.2, e4.2, true_or, false_or, or_false, if_true]
      omega
    · rw [if_neg hm] at hy
      simp only [hm, e1.2, e2.2, e4.2, false_or, or_false]
      simp only [if_false]
      omega
  · have hy := (sl_tier_partition st r σ 4 (get_active_courts st.players.length) hσ hnd).1 p (hpick 4 hc)
    have e1 := (sl_tier_partition st r σ 1 (get_active_courts st.players.length) hσ hnd).2 p (hnopick 1 (by omega))
    have e2 := (sl_tier_partition st r σ 2 (get_active_courts st.players.length) hσ hnd).2 p (hnopick 2 (by omega))
    have e3 := (sl_tier_partition st r σ 3 (get_active_courts st.players.length) hσ hnd).2 p (hnopick 3 (by omega))
    rw [e1.1, e2.1, e3.1]
    by_cases hm : p ∈ (sl_tier_contribution st r σ 4 (get_active_courts st.players.length)).2
    · rw [if_pos hm] at hy
      simp only [hm, e1.2, e2.2, e3.2, true_or, false_or, or_false, if_true]
      omega
    · rw [if_neg hm] at hy
      simp only [hm, e1.2, e2.2, e3.2, false_or, or_false]
      simp only [if_false]
      omega

theorem md_round_partition (st : MDState) (σsit : List String → List String)
    (σplay : List Team → List Team)
    (hnames : (st.teams.map (fun t => t.name)).Nodup)
    (hσ1 : ∀ l, (σsit l).Perm l) (hσ2 : ∀ l : List Team, (σplay l).Perm l)
    (rd : MDRound) (hgen : (md_generate_round st σsit σplay).1 = some rd) :
    ∀ t ∈ st.teams,
      rd.courts.countP (fun c => decide (c.team1 = t ∨ c.team2 = t)) +
        (if t.name ∈ rd.sitting_teams then 1 else 0) = 1 := by
  by_cases hguard : st.teams.length < md_get_active_courts st.teams.length * 2
  · simp only [md_generate_round, if_pos hguard] at hgen
    cases hgen
  · simp only [md_generate_round, if_neg hguard] at hgen
    set r := st.session_rounds.length + 1 with hr
    set names := st.teams.map (fun t => t.name) with hnm
    set sitting := md_select_sitting names st.stats r σsit with hsit
    set playing := σplay (st.teams.filter (fun t => decide (t.name ∉ sitting)))
      with hplaying
    set nums := (List.range (md_get_active_courts st.teams.length)).map
      (fun i => i + 1) with hnums
    have hrd : rd =
        { round_number := r
          courts := md_courts_of_slices (court_slices 2 nums playing)
          sitting_teams := sitting } :=
      (Option.some.inj hgen).symm
    have hnl : nums.length = md_get_active_courts st.teams.length := by
      rw [hnums]
      simp
    have hnameslen : names.length = st.teams.length := by
      rw [hnm]
      simp
    have hfacts := md_sitting_facts names st.stats r σsit hσ1 hnames
    have hcore := partition_core_md st.teams sitting playing nums hnames
      hfacts.1 hfacts.2.1
      (by rw [hfacts.2.2, hnl, hnameslen]; omega)
      (by rw [hnl]; omega)
      (hσ2 _)
    intro t ht
    rw [hrd]
    exact hcore t ht

/-- C1.  For every successfully generated round, in every league variant
(round-robin, post-seeding tiered, mixed-doubles), the round partitions
the roster: each roster participant either appears on exactly one court
of the round or is listed in the sitting-out set, never both and never
on two courts.  The shuffles are quantified over all permutations, the
roster is duplicate-free, and for the tiered variant every stored tier
value is in 1-4 (as maintained by the engine itself). -/
theorem claim_C1_round_partition :
    (∀ (st : RRState) (σsit σplay : List String → List String) (rd : Round),
      st.players.Nodup → (∀ l, (σsit l).Perm l) → (∀ l, (σplay l).Perm l) →
      (rr_generate_round st σsit σplay).1 = some rd →
      ∀ p ∈ st.players,
        rd.courts.countP (fun c => decide (p ∈ c.players)) +
          (if p ∈ rd.sitting_players then 1 else 0) = 1) ∧
    (∀ (st : SLState) (σseed : List String → List String)
      (σ : Nat → List String → List String) (rd : Round),
      st.players.Nodup → (∀ tn l, (σ tn l).Perm l) →
      (∀ p ∈ st.players, 1 ≤ (st.tiers p).getD 2 ∧ (st.tiers p).getD 2 ≤ 4) →
      st.is_seeding_session = false →
      (sl_generate_round st σseed σ).1 = some rd →
      ∀ p ∈ st.players,
        rd.courts.countP (fun c => decide (p ∈ c.players)) +
          (if p ∈ rd.sitting_players then 1 else 0) = 1) ∧
    (∀ (st : MDState) (σsit : List String → List String)
      (σplay : List Team → List Team) (rd : MDRound),
      (st.teams.map (fun t => t.name)).Nodup →
      (∀ l, (σsit l).Perm l) → (∀ l, (σplay l).Perm l) →
      (md_generate_round st σsit σplay).1 = some rd →
      ∀ t ∈ st.teams,
        rd.courts.countP (fun c => decide (c.team1 = t ∨ c.team2 = t)) +
          (if t.name ∈ rd.sitting_teams then 1 else 0) = 1) := by
  refine ⟨?_, ?_, ?_⟩
  · intro st σsit σplay rd hnd h1 h2 hgen
    exact rr_round_partition st σsit σplay hnd h1 h2 rd hgen
  · intro st σseed σ rd hnd hσ htier hseed hgen
    exact sl_tiered_partition st σseed σ hnd hσ htier hseed rd hgen
  · intro st σsit σplay rd hnames h1 h2 hgen
    exact md_round_partition st σsit σplay hnames h1 h2 rd hgen

/-- Witness for C1: the partition equation holds on concrete successful
rounds of all three variants. -/
theorem claim_C1_round_partition_witness :
    (rdC1rr.courts.countP (fun c => decide ("A" ∈ c.players)) +
      (if "A" ∈ rdC1rr.sitting_players then 1 else 0) = 1) ∧
    (rdC1sl.courts.countP (fun c => decide ("A" ∈ c.players)) +
      (if "A" ∈ rdC1sl.sitting_players then 1 else 0) = 1) ∧
    (rdC1md.courts.countP (fun c => decide (c.team1 = teamAB ∨ c.team2 = teamAB)) +
      (if teamAB.name ∈ rdC1md.sitting_teams then 1 else 0) = 1) := by
  refine ⟨?_, ?_, ?_⟩
  · exact claim_C1_round_partition.1 stC1rr id id rdC1rr (by decide)
      (fun l => List.Perm.refl l) (fun l => List.Perm.refl l) (by decide)
      "A" (by decide)
  · exact claim_C1_round_partition.2.1 stC1sl id (fun _ l => l) rdC1sl (by decide)
      (fun tn l => List.Perm.refl l) (by decide) (by decide) (by decide)
      "A" (by decide)
  · exact claim_C1_round_partition.2.2 stC1md id id rdC1md (by decide)
      (fun l => List.Perm.refl l) (fun l => List.Perm.refl l) (by decide)
      teamAB (by decide)

/-! ### Evaluation of the stats-updating folds -/

theorem foldl_updStats_not_mem (G : PlayerStats → PlayerStats) (l : List String)
    (f : String → PlayerStats) (p : String) (hp : p ∉ l) :
    (l.foldl (fun g q => updStats g q G) f) p = f p := by
  induction l generalizing f with
  | nil => rfl
  | cons a t ih =>
    have hpa : p ≠ a := fun hc => hp (hc ▸ List.mem_cons_self a t)
    have hpt : p ∉ t := fun hc => hp (List.mem_cons_of_mem a hc)
    simp only [List.foldl_cons]
    rw [ih _ hpt]
    simp [updStats, hpa]

theorem foldl_updStats_last_sat (r : Int) (l : List String)
    (f : String → PlayerStats) (p : String) (hp : p ∈ l) :
    ((l.foldl (fun g q => updStats g q (fun s =>
      { s with rounds_sat_out := s.rounds_sat_out + 1,
               last_sat_out_round := r })) f) p).last_sat_out_round = r := by
  induction l generalizing f with
  | nil => cases hp
  | cons a t ih =>
    simp only [List.foldl_cons]
    by_cases hpt : p ∈ t
    · exact ih _ hpt
    · have hpa : p = a := by
        rcases List.mem_cons.1 hp with h | h
        · exact h
        · exact absurd h hpt
      rw [foldl_updStats_not_mem _ _ _ _ hpt]
      simp [updStats, hpa]

/-- C6.  In every variant's sit-out selector, a participant who is under
the one-round cooldown (did not pass `can_sit_out`, i.e. sat out the
immediately preceding round) is only ever selected through the
forced-fill escape hatch: its presence in the selection implies that
fewer eligible participants existed than sit-out seats were needed, and
that every eligible pool member was also selected — no eligible
alternative remains unselected.  In addition, a round-robin round's
sitting players are stamped with the round number, which makes them
fail `can_sit_out` at the immediately following round. -/
theorem claim_C6_consecutive_sit_cooldown :
    (∀ (players : List String) (stats : String → PlayerStats) (r : Nat)
      (σ : List String → List String) (p : String),
      p ∈ rr_select_sitting players stats r σ →
      can_sit_out (stats p).last_sat_out_round r = false →
      (players.filter (fun q => can_sit_out (stats q).last_sat_out_round r)).length <
          players.length - get_active_courts players.length * 4 ∧
        ∀ q ∈ players, can_sit_out (stats q).last_sat_out_round r = true →
          q ∈ rr_select_sitting players stats r σ) ∧
    (∀ (pool : List String) (stats : String → SLStats) (needed r : Nat) (p : String),
      p ∈ sl_select_sitting pool stats needed r →
      can_sit_out (stats p).last_sat_out_round r = false →
      (pool.filter (fun q => can_sit_out (stats q).last_sat_out_round r)).length <
          pool.length - needed ∧
        ∀ q ∈ pool, can_sit_out (stats q).last_sat_out_round r = true →
          q ∈ sl_select_sitting pool stats needed r) ∧
    (∀ (names : List String) (stats : String → TeamStats) (r : Nat)
      (σ : List String → List String) (t : String),
      t ∈ md_select_sitting names stats r σ →
      can_sit_out (stats t).last_sat_out_round r = false →
      (names.filter (fun q => can_sit_out (stats q).last_sat_out_round r)).length <
          names.length - md_get_active_courts names.length * 2 ∧
        ∀ q ∈ names, can_sit_out (stats q).last_sat_out_round r = true →
          q ∈ md_select_sitting names stats r σ) ∧
    (∀ (st : RRState) (σsit σplay : List String → List String) (rd : Round),
      (rr_generate_round st σsit σplay).1 = some rd →
      ∀ p ∈ rd.sitting_players,
        can_sit_out
          (((rr_generate_round st σsit σplay).2.2).stats p).last_sat_out_round
          (rd.round_number + 1) = false) := by
  refine ⟨?_, ?_, ?_, ?_⟩
  · intro players stats r σ p hmem hin
    exact sit_select_forced_trigger hmem hin
  · intro pool stats needed r p hmem hin
    exact sit_select_forced_trigger hmem hin
  · intro names stats r σ t hmem hin
    exact sit_select_forced_trigger hmem hin
  · intro st σsit σplay rd hgen p hp
    by_cases hguard : st.players.length < get_active_courts st.players.length * 4
    · simp only [rr_generate_round, if_pos hguard] at hgen
      cases hgen
    · simp only [rr_generate_round, if_neg hguard] at hgen
      have hrd := (Option.some.inj hgen).symm
      set r := st.session_rounds.length + 1 with hr
      simp only [rr_generate_round, if_neg hguard]
      have hsit : p ∈ rr_select_sitting st.players st.stats r σsit := by
        rw [hrd] at hp
        exact hp
      have hlast := foldl_updStats_last_sat (r : Int)
        (rr_select_sitting st.players st.stats r σsit) st.stats p hsit
      have hnum : rd.round_number = r := by rw [hrd]
      rw [hnum]
      simp only [hlast]
      unfold can_sit_out
      apply decide_eq_false
      push_cast
      omega

/-- Witness for C6: a nine-member... rather five-member pool in which
everyone sat out the previous round, so the single sit-out seat is
force-filled; and a concrete generated round whose sitter is barred at
the next round. -/
theorem claim_C6_consecutive_sit_cooldown_witness :
    ((pl5.filter (fun q =>
        can_sit_out (statsIneligible q).last_sat_out_round 2)).length <
        pl5.length - get_active_courts pl5.length * 4 ∧
      ∀ q ∈ pl5, can_sit_out (statsIneligible q).last_sat_out_round 2 = true →
        q ∈ rr_select_sitting pl5 statsIneligible 2 id) ∧
    can_sit_out
      (((rr_generate_round stC6rr id id).2.2).stats "A").last_sat_out_round
      (rdC6rr.round_number + 1) = false := by
  constructor
  · exact claim_C6_consecutive_sit_cooldown.1 pl5 statsIneligible 2 id "A"
      (by decide) (by decide)
  · exact claim_C6_consecutive_sit_cooldown.2.2.2 stC6rr id id rdC6rr
      (by decide) "A" (by decide)

/-- C7 as frozen is false for the round-robin (and mixed-doubles)
selector: the forced fill draws from a randomly shuffled pool, not from
the highest games-played.  With every pool member ineligible and one
sit-out seat, the shuffle that reverses the pool selects the last player
(0 games) while player A (5 games) stays unselected. -/
theorem claim_C7_counterexample : ¬ rr_forced_fill_by_games_claim := by
  intro h
  have hinst := h pl5 statsC7 2 List.reverse (fun l => l.reverse_perm) "E" "A"
    (by decide) (by decide) (by decide) (by decide) (by decide)
  exact absurd hinst (by decide)

/-- C7 amended.  Only the seeded-ladder selector prioritizes the forced
fill by highest games played (any forced-filled ineligible participant
has at least as many games as any unselected ineligible one); the
round-robin and mixed-doubles selectors draw the fill from a shuffled
pool in arbitrary order.  In all three variants the selection never
under- or over-fills: it returns exactly the required number of sitters
(pool size minus seats to fill). -/
theorem claim_C7_forced_fill_amended :
    (∀ (pool : List String) (stats : String → SLStats) (needed r : Nat)
      (p q : String),
      p ∈ sl_select_sitting pool stats needed r → q ∈ pool →
      q ∉ sl_select_sitting pool stats needed r →
      can_sit_out (stats p).last_sat_out_round r = false →
      can_sit_out (stats q).last_sat_out_round r = false →
      (stats q).games_played ≤ (stats p).games_played) ∧
    (∀ (pool : List String) (stats : String → SLStats) (needed r : Nat),
      pool.Nodup →
      (sl_select_sitting pool stats needed r).length = pool.length - needed) ∧
    (∀ (players : List String) (stats : String → PlayerStats) (r : Nat)
      (σ : List String → List String), players.Nodup → (∀ l, (σ l).Perm l) →
      (rr_select_sitting players stats r σ).length =
        players.length - get_active_courts players.length * 4) ∧
    (∀ (names : List String) (stats : String → TeamStats) (r : Nat)
      (σ : List String → List String), names.Nodup → (∀ l, (σ l).Perm l) →
      (md_select_sitting names stats r σ).length =
        names.length - md_get_active_courts names.length * 2) := by
  refine ⟨?_, ?_, ?_, ?_⟩
  · intro pool stats needed r p q hp hq hqn hpe hqe
    exact sit_select_fill_by_weight (fun x => (stats x).games_played)
      hp hq hqn hpe hqe
  · intro pool stats needed r hnd
    exact (sl_sitting_facts pool stats needed r hnd).2.2
  · intro players stats r σ hnd hσ
    exact (rr_sitting_facts players stats r σ hσ hnd).2.2
  · intro names stats r σ hnd hσ
    exact (md_sitting_facts names stats r σ hσ hnd).2.2

/-- Witness for the amended C7: in a five-member seeded pool where
everyone is ineligible and player A has the most games, the forced fill
selects A ahead of B, and each selector returns exactly the required
count on a concrete pool. -/
theorem claim_C7_forced_fill_amended_witness :
    ((statsC7sl "B").games_played ≤ (statsC7sl "A").games_played) ∧
    (sl_select_sitting pl5 statsC7sl 4 2).length = pl5.length - 4 ∧
    (rr_select_sitting pl5 statsC7 2 id).length =
      pl5.length - get_active_courts pl5.length * 4 := by
  refine ⟨?_, ?_, ?_⟩
  · exact claim_C7_forced_fill_amended.1 pl5 statsC7sl 4 2 "A" "B"
      (by decide) (by decide) (by decide) (by decide) (by decide)
  · exact claim_C7_forced_fill_amended.2.1 pl5 statsC7sl 4 2 (by decide)
  · exact claim_C7_forced_fill_amended.2.2.1 pl5 statsC7 2 id (by decide)
      (fun l => List.Perm.refl l)

/-- C3 fails on the tiered strategy: with three players (below the
four-player minimum of a single court) the tiered generator returns no
error, appends a round with zero courts, and increments every player's
sit-out counter — the round list grows and stats are mutated. -/
theorem claim_C3_counterexample :
    stC3.players.length < 4 ∧
    stC3.is_seeding_session = false ∧
    (sl_generate_round stC3 id (fun _ l => l)).2.1 = none ∧
    ((sl_generate_round stC3 id (fun _ l => l)).2.2).session_rounds.length =
      stC3.session_rounds.length + 1 ∧
    (((sl_generate_round stC3 id (fun _ l => l)).2.2).stats "A").rounds_sat_out =
      (stC3.stats "A").rounds_sat_out + 1 := by
  refine ⟨by decide, by decide, by decide, by decide, by decide⟩

/-- C3 amended.  The round-robin, seeding, and historical greedy
strategies reject a shortfall with a descriptive error and leave the
state — round list and all stats — completely unchanged; the historical
strategy also never mutates state on any error return.  The tiered
strategy, by contrast, never fails: it reports no error and always
appends exactly one round (possibly with zero courts). -/
theorem claim_C3_shortfall_amended :
    (∀ (st : RRState) (σ1 σ2 : List String → List String),
      st.players.length < get_active_courts st.players.length * 4 →
      rr_generate_round st σ1 σ2 =
        (none, some ("Need at least "
          ++ toString (get_active_courts st.players.length * 4) ++ " players for "
          ++ toString (get_active_courts st.players.length) ++ " courts"), st)) ∧
    (∀ (st : SLState) (σseed : List String → List String)
      (σtier : Nat → List String → List String),
      st.is_seeding_session = true →
      st.players.length < get_active_courts st.players.length * 4 →
      sl_generate_round st σseed σtier =
        (none, some ("Need at least "
          ++ toString (get_active_courts st.players.length * 4) ++ " players for "
          ++ toString (get_active_courts st.players.length) ++ " courts"), st)) ∧
    (∀ (st : OldState) (σ : List String → List String) (e : String),
      (old_generate_round st σ).2.1 = some e →
      (old_generate_round st σ).1 = none ∧ (old_generate_round st σ).2.2 = st) ∧
    (∀ (st : OldState) (σ : List String → List String),
      st.players.length < 8 → (old_generate_round st σ).1 = none) ∧
    (∀ (st : SLState) (σseed : List String → List String)
      (σtier : Nat → List String → List String),
      st.is_seeding_session = false →
      (sl_generate_round st σseed σtier).2.1 = none ∧
      ∃ rd, (sl_generate_round st σseed σtier).1 = some rd ∧
        ((sl_generate_round st σseed σtier).2.2).session_rounds =
          st.session_rounds ++ [rd] ∧
        ((sl_generate_round st σseed σtier).2.2).players = st.players ∧
        ((sl_generate_round st σseed σtier).2.2).tiers = st.tiers) := by
  refine ⟨?_, ?_, ?_, ?_, ?_⟩
  · intro st σ1 σ2 h
    simp only [rr_generate_round, if_pos h]
  · intro st σseed σtier hsd h
    simp only [sl_generate_round, hsd, if_true, sl_generate_seeding_round, if_pos h]
  · intro st σ e herr
    by_cases h8 : st.players.length < 8
    · simp only [old_generate_round, if_pos h8]
      exact ⟨trivial, trivial⟩
    · by_cases hfill : (old_greedy st 1000 [] (σ st.players)).length < st.num_courts
      · simp only [old_generate_round, if_neg h8, if_pos hfill]
        exact ⟨trivial, trivial⟩
      · simp only [old_generate_round, if_neg h8, if_neg hfill] at herr
        cases herr
  · intro st σ h8
    simp only [old_generate_round, if_pos h8]
  · intro st σseed σtier hsd
    simp only [sl_generate_round, hsd, Bool.false_eq_true, if_false,
      sl_generate_tiered_round, sl_fin_round]
    exact ⟨by simp, _, rfl, by simp, by simp, by simp⟩

/-- Witness for the amended C3 at concrete shortfall states of every
strategy, and a concrete tiered state that always appends. -/
theorem claim_C3_shortfall_amended_witness :
    (rr_generate_round stC3rr id id =
      (none, some "Need at least 4 players for 1 courts", stC3rr)) ∧
    ((old_generate_round stC3old id).1 = none) ∧
    ((sl_generate_round stC3 id (fun _ l => l)).2.1 = none) := by
  refine ⟨?_, ?_, ?_⟩
  · exact claim_C3_shortfall_amended.1 stC3rr id id (by decide)
  · exact claim_C3_shortfall_amended.2.2.2.1 stC3old id (by decide)
  · exact (claim_C3_shortfall_amended.2.2.2.2 stC3 id (fun _ l => l) (by decide)).1

/-- C2 is the intended behaviour but the seeded-ladder code violates it:
when the optional side identities are supplied,
`SeededLadderLeague.record_game_score` matches the court by teams alone,
skipping the completed check.  Evaluated at the failing input — a match
already recorded 11-7, re-recorded identically with the team lists — the
second call succeeds and doubles every participant's games and points,
while the same second call without identities is correctly rejected. -/
theorem claim_C2_already_completed_eval :
    (sl_record_game_score stC2 1 1 11 7 none none).1 = true ∧
    (stC2b.stats "A").games_played = 1 ∧
    (stC2b.stats "A").total_points = 11 ∧
    (sl_record_game_score stC2b 1 1 11 7 none none).1 = false ∧
    (sl_record_game_score stC2b 1 1 11 7 none none).2.stats "A" = stC2b.stats "A" ∧
    (sl_record_game_score stC2b 1 1 11 7
      (some ["A", "B"]) (some ["C", "D"])).1 = true ∧
    ((sl_record_game_score stC2b 1 1 11 7
      (some ["A", "B"]) (some ["C", "D"])).2.stats "A").games_played = 2 ∧
    ((sl_record_game_score stC2b 1 1 11 7
      (some ["A", "B"]) (some ["C", "D"])).2.stats "A").total_points = 22 := by
  refine ⟨by decide, by decide, by decide, by decide, by decide, by decide,
    by decide, by decide⟩

/-! ### The ranking comparators are total preorders -/

theorem rr_key_trans : ∀ a b c, rr_rank_key_le a b = true →
    rr_rank_key_le b c = true → rr_rank_key_le a c = true := by
  intro a b c hab hbc
  simp only [rr_rank_key_le, decide_eq_true_eq] at *
  omega

theorem rr_key_total : ∀ a b, rr_rank_key_le a b = true ∨
    rr_rank_key_le b a = true := by
  intro a b
  simp only [rr_rank_key_le, decide_eq_true_eq]
  omega

theorem md_key_trans : ∀ a b c, md_rank_key_le a b = true →
    md_rank_key_le b c = true → md_rank_key_le a c = true := by
  intro a b c hab hbc
  simp only [md_rank_key_le, decide_eq_true_eq] at *
  omega

theorem md_key_total : ∀ a b, md_rank_key_le a b = true ∨
    md_rank_key_le b a = true := by
  intro a b
  simp only [md_rank_key_le, decide_eq_true_eq]
  omega

theorem sl_key_trans : ∀ a b c, sl_rank_key_le a b = true →
    sl_rank_key_le b c = true → sl_rank_key_le a c = true := by
  intro a b c hab hbc
  simp only [sl_rank_key_le, decide_eq_true_eq] at *
  omega

theorem sl_key_total : ∀ a b, sl_rank_key_le a b = true ∨
    sl_rank_key_le b a = true := by
  intro a b
  simp only [sl_rank_key_le, decide_eq_true_eq]
  omega

/-- C4 fails on the code: the round-robin `get_rankings` performs no
equalized truncation.  With player A holding two recorded 11-0 games and
player B one 5-11 game, `min_games` is 1 but A's ranking entry reports
all 22 points instead of the 11 of the first counted game. -/
theorem claim_C4_counterexample : ¬ rr_rankings_equalized_claim := by
  intro h
  have hinst := h ["A", "B"] statsC4
    ⟨"A", 2, 2, 0, 22, 0, 22⟩ (by decide)
  exact absurd hinst (by decide)

/-- C4 amended.  The round-robin `get_rankings` is purely cumulative: it
produces exactly one entry per roster player, every entry carries the
player's full cumulative games, wins, losses, points, points-against and
differential (points minus points-against) with no `minGames`
truncation and no counted-games field, and the output is sorted by wins
descending, then differential descending, then points descending (ties
keeping roster order, the sort being stable). -/
theorem claim_C4_rankings_amended :
    (∀ (players : List String) (stats : String → PlayerStats),
      ((rr_get_rankings players stats).map (fun e => e.player)).Perm players) ∧
    (∀ (players : List String) (stats : String → PlayerStats),
      ∀ e ∈ rr_get_rankings players stats, e = rr_mk_entry stats e.player) ∧
    (∀ (players : List String) (stats : String → PlayerStats),
      (rr_get_rankings players stats).Pairwise
        (fun a b => rr_rank_key_le a b = true)) := by
  refine ⟨?_, ?_, ?_⟩
  · intro players stats
    unfold rr_get_rankings
    by_cases h : players = []
    · subst h
      simp
    · rw [if_neg h]
      have h1 := (pysort_perm rr_rank_key_le
        (players.map (rr_mk_entry stats))).map (fun e => e.player)
      rw [List.map_map] at h1
      have h2 : players.map ((fun e => e.player) ∘ rr_mk_entry stats) = players := by
        simp [Function.comp_def, rr_mk_entry]
      rwa [h2] at h1
  · intro players stats e he
    unfold rr_get_rankings at he
    by_cases h : players = []
    · rw [if_pos h] at he
      cases he
    · rw [if_neg h] at he
      have h1 := (pysort_mem rr_rank_key_le _ e).1 he
      obtain ⟨p, _, hpe⟩ := List.mem_map.1 h1
      have hpl : e.player = p := by rw [← hpe]; rfl
      rw [hpl, hpe]
  · intro players stats
    unfold rr_get_rankings
    by_cases h : players = []
    · rw [if_pos h]
      exact List.Pairwise.nil
    · rw [if_neg h]
      exact pysort_sorted rr_rank_key_le rr_key_trans rr_key_total _

/-- Witness for the amended C4 at the two-player fixture. -/
theorem claim_C4_rankings_amended_witness :
    (⟨"A", 2, 2, 0, 22, 0, 22⟩ : RankEntry) = rr_mk_entry statsC4 "A" := by
  have h := claim_C4_rankings_amended.2.1 ["A", "B"] statsC4
    ⟨"A", 2, 2, 0, 22, 0, 22⟩ (by decide)
  exact h

/-- C8 fails for the mixed-doubles variant: its sort key is only
(wins, differential) — points are not a tie-break.  With two teams of
equal wins and equal differential, the roster-first team AB stays ahead
of team CD even though CD has strictly more points. -/
theorem claim_C8_counterexample : ¬ md_rankings_sorted_claim := by
  intro h
  have h2 := h stC8
  have he : md_get_rankings stC8 =
      [⟨"A & B", "A", "B", 0, 1, 10, 10, 0, 1⟩,
       ⟨"C & D", "C", "D", 0, 1, 20, 20, 0, 1⟩] := by decide
  rw [he] at h2
  have h3 := (List.pairwise_cons.1 h2).1
    ⟨"C & D", "C", "D", 0, 1, 20, 20, 0, 1⟩ (List.mem_singleton.2 rfl)
  exact absurd h3 (by decide)

/-- C8 amended.  Cumulative rankings are sorted by (wins desc, diff
desc, points desc) in the round-robin variant, but only by (wins desc,
diff desc) in the mixed-doubles variant — points never break ties there,
stable roster order does.  The tiered variant sorts by (tier asc, points
desc, diff desc); tier is the primary key, so along the output tiers are
monotonically non-decreasing and no lower-tier participant ever appears
above a higher-tier one. -/
theorem claim_C8_rankings_sort_amended :
    (∀ (players : List String) (stats : String → PlayerStats),
      (rr_get_rankings players stats).Pairwise
        (fun a b => rr_rank_key_le a b = true)) ∧
    (∀ st : MDState, (md_get_rankings st).Pairwise
      (fun a b => md_rank_key_le a b = true)) ∧
    (∀ st : SLState, (sl_get_rankings st).Pairwise
      (fun a b => sl_rank_key_le a b = true)) ∧
    (∀ st : SLState, (sl_get_rankings st).Pairwise
      (fun a b => a.tier ≤ b.tier)) := by
  have hsl : ∀ st : SLState, (sl_get_rankings st).Pairwise
      (fun a b => sl_rank_key_le a b = true) := by
    intro st
    unfold sl_get_rankings
    by_cases h : st.players = []
    · rw [if_pos h]
      exact List.Pairwise.nil
    · rw [if_neg h]
      exact pysort_sorted sl_rank_key_le sl_key_trans sl_key_total _
  refine ⟨?_, ?_, hsl, ?_⟩
  · intro players stats
    unfold rr_get_rankings
    by_cases h : players = []
    · rw [if_pos h]
      exact List.Pairwise.nil
    · rw [if_neg h]
      exact pysort_sorted rr_rank_key_le rr_key_trans rr_key_total _
  · intro st
    unfold md_get_rankings
    exact pysort_sorted md_rank_key_le md_key_trans md_key_total _
  · intro st
    refine (hsl st).imp ?_
    intro a b hab
    simp only [sl_rank_key_le, decide_eq_true_eq] at hab
    omega

theorem rr_update_team_not_mem (won : Bool) (pf pa rnd : Nat)
    (team : List String) (f : String → PlayerStats) (p : String)
    (hp : p ∉ team) : (rr_update_team won pf pa rnd team f) p = f p :=
  foldl_updStats_not_mem _ team f p hp

theorem rr_update_team_wins (won : Bool) (pf pa rnd : Nat) (team : List String)
    (f : String → PlayerStats) (p : String) :
    ((rr_update_team won pf pa rnd team f) p).wins =
      (f p).wins + team.count p * (if won then 1 else 0) := by
  induction team generalizing f with
  | nil => simp [rr_update_team]
  | cons a t ih =>
    simp only [rr_update_team, List.foldl_cons] at ih ⊢
    rw [ih]
    by_cases hpa : p = a
    · subst hpa
      simp only [updStats, if_pos rfl, List.count_cons, beq_self_eq_true,
        if_pos rfl]
      cases won with
      | false => simp
      | true => simp; ring
    · have hne : ¬(p == a) = true := by simp [hpa]
      simp only [updStats, if_neg hpa, List.count_cons, hne, if_false]
      simp [Ne.symm hpa]

theorem rr_update_team_losses (won : Bool) (pf pa rnd : Nat) (team : List String)
    (f : String → PlayerStats) (p : String) :
    ((rr_update_team won pf pa rnd team f) p).losses =
      (f p).losses + team.count p * (if won then 0 else 1) := by
  induction team generalizing f with
  | nil => simp [rr_update_team]
  | cons a t ih =>
    simp only [rr_update_team, List.foldl_cons] at ih ⊢
    rw [ih]
    by_cases hpa : p = a
    · subst hpa
      simp only [updStats, if_pos rfl, List.count_cons, beq_self_eq_true,
        if_pos rfl]
      cases won with
      | false => simp; ring
      | true => simp
    · have hne : ¬(p == a) = true := by simp [hpa]
      simp only [updStats, if_neg hpa, List.count_cons, hne, if_false]
      simp [Ne.symm hpa]

theorem md_update_team_wins (tn : String) (pf pa rnd : Nat) (opp : String)
    (f : String → TeamStats) (x : String) :
    ((md_update_team tn pf pa rnd opp f) x).wins = (f x).wins := by
  by_cases hx : x = tn <;> simp [md_update_team, updMD, hx]

theorem md_update_team_losses (tn : String) (pf pa rnd : Nat) (opp : String)
    (f : String → TeamStats) (x : String) :
    ((md_update_team tn pf pa rnd opp f) x).losses = (f x).losses := by
  by_cases hx : x = tn <;> simp [md_update_team, updMD, hx]

theorem md_update_winloss_eval (t1n t2n : String) (s1 s2 : Nat)
    (f : String → TeamStats) (hne : t1n ≠ t2n) :
    ((md_update_winloss t1n t2n s1 s2 f) t1n).wins =
      (f t1n).wins + (if s2 < s1 then 1 else 0) ∧
    ((md_update_winloss t1n t2n s1 s2 f) t1n).losses =
      (f t1n).losses + (if s2 < s1 then 0 else 1) ∧
    ((md_update_winloss t1n t2n s1 s2 f) t2n).wins =
      (f t2n).wins + (if s2 < s1 then 0 else 1) ∧
    ((md_update_winloss t1n t2n s1 s2 f) t2n).losses =
      (f t2n).losses + (if s2 < s1 then 1 else 0) := by
  have hne2 : t2n ≠ t1n := fun hc => hne hc.symm
  by_cases hlt : s2 < s1 <;>
    simp [md_update_winloss, updMD, hlt, hne, hne2]

/-- C5 fails on the code at equal scores: recording a 7-7 tie on an
uncompleted round-robin court succeeds and credits team 2 (players C, D)
a win even though team 2's score is not strictly greater. -/
theorem claim_C5_counterexample :
    (rr_record_game_score stC5 1 1 7 7).1 = true ∧
    (stC5.stats "C").wins = 0 ∧
    ((rr_record_game_score stC5 1 1 7 7).2.stats "C").wins = 1 ∧
    ((rr_record_game_score stC5 1 1 7 7).2.stats "A").wins = 0 ∧
    ((rr_record_game_score stC5 1 1 7 7).2.stats "A").losses = 1 ∧
    "C" ∈ (mk_court_data 1 ["A", "B", "C", "D"]).team2 ∧
    ¬((7 : Nat) < 7) := by
  refine ⟨by decide, by decide, by decide, by decide, by decide, by decide,
    by decide⟩

/-- C5 amended.  On every successful round-robin score recording, a
team-1 player's win tally is incremented exactly when team 1's score is
strictly greater, and their loss tally otherwise; a team-2 player's win
tally is incremented exactly when team 1's score is NOT strictly greater
— so on equal scores team 2 is credited the win and team 1 the loss.
The mixed-doubles recorder behaves identically at team level. -/
theorem claim_C5_win_credit_amended :
    (∀ (st : RRState) (rn cn s1 s2 : Nat) (rd : Round) (ci : Nat) (c : Court),
      rn ≠ 0 → rn ≤ st.session_rounds.length →
      st.session_rounds[rn - 1]? = some rd →
      rd.courts.findIdx? (fun c => decide (c.court = cn)) = some ci →
      rd.courts[ci]? = some c →
      c.completed = false →
      (rr_record_game_score st rn cn s1 s2).1 = true ∧
      (∀ p, p ∈ c.team1 → c.team1.count p = 1 → p ∉ c.team2 →
        ((rr_record_game_score st rn cn s1 s2).2.stats p).wins =
          (st.stats p).wins + (if s2 < s1 then 1 else 0) ∧
        ((rr_record_game_score st rn cn s1 s2).2.stats p).losses =
          (st.stats p).losses + (if s2 < s1 then 0 else 1)) ∧
      (∀ p, p ∈ c.team2 → c.team2.count p = 1 → p ∉ c.team1 →
        ((rr_record_game_score st rn cn s1 s2).2.stats p).wins =
          (st.stats p).wins + (if s2 < s1 then 0 else 1) ∧
        ((rr_record_game_score st rn cn s1 s2).2.stats p).losses =
          (st.stats p).losses + (if s2 < s1 then 1 else 0))) ∧
    (∀ (st : MDState) (rn cn s1 s2 : Nat) (rd : MDRound) (ci : Nat) (c : MDCourt),
      rn ≠ 0 → rn ≤ st.session_rounds.length →
      st.session_rounds[rn - 1]? = some rd →
      rd.courts.findIdx? (fun c => decide (c.court = cn)) = some ci →
      rd.courts[ci]? = some c →
      c.completed = false →
      c.team1.name ≠ c.team2.name →
      (md_record_game_score st rn cn s1 s2).1 = true ∧
      ((md_record_game_score st rn cn s1 s2).2.stats c.team1.name).wins =
        (st.stats c.team1.name).wins + (if s2 < s1 then 1 else 0) ∧
      ((md_record_game_score st rn cn s1 s2).2.stats c.team1.name).losses =
        (st.stats c.team1.name).losses + (if s2 < s1 then 0 else 1) ∧
      ((md_record_game_score st rn cn s1 s2).2.stats c.team2.name).wins =
        (st.stats c.team2.name).wins + (if s2 < s1 then 0 else 1) ∧
      ((md_record_game_score st rn cn s1 s2).2.stats c.team2.name).losses =
        (st.stats c.team2.name).losses + (if s2 < s1 then 1 else 0)) := by
  constructor
  · intro st rn cn s1 s2 rd ci c h0 hle hrd hfind hget hcomp
    have hcond : ¬(rn = 0 ∨ st.session_rounds.length < rn) := by omega
    have hncomp : ¬c.completed = true := by simp [hcomp]
    simp only [rr_record_game_score, if_neg hcond, hrd, hfind, hget,
      if_neg hncomp]
    refine ⟨trivial, ?_, ?_⟩
    · intro p hp1 hcnt hp2
      rw [rr_update_team_not_mem _ _ _ _ _ _ _ hp2]
      constructor
      · rw [rr_update_team_wins, hcnt]
        by_cases hlt : s2 < s1 <;> simp [hlt]
      · rw [rr_update_team_losses, hcnt]
        by_cases hlt : s2 < s1 <;> simp [hlt]
    · intro p hp2 hcnt hp1
      constructor
      · rw [rr_update_team_wins, hcnt,
          rr_update_team_not_mem _ _ _ _ _ _ _ hp1]
        by_cases hlt : s2 < s1 <;> simp [hlt]
      · rw [rr_update_team_losses, hcnt,
          rr_update_team_not_mem _ _ _ _ _ _ _ hp1]
        by_cases hlt : s2 < s1 <;> simp [hlt]
  · intro st rn cn s1 s2 rd ci c h0 hle hrd hfind hget hcomp hne
    have hcond : ¬(rn = 0 ∨ st.session_rounds.length < rn) := by omega
    have hncomp : ¬c.completed = true := by simp [hcomp]
    simp only [md_record_game_score, if_neg hcond, hrd, hfind, hget,
      if_neg hncomp]
    have hwl := md_update_winloss_eval c.team1.name c.team2.name s1 s2
      (md_update_team c.team2.name s2 s1 rn c.team1.name
        (md_update_team c.team1.name s1 s2 rn c.team2.name st.stats)) hne
    refine ⟨trivial, ?_, ?_, ?_, ?_⟩
    · rw [hwl.1, md_update_team_wins, md_update_team_wins]
    · rw [hwl.2.1, md_update_team_losses, md_update_team_losses]
    · rw [hwl.2.2.1, md_update_team_wins, md_update_team_wins]
    · rw [hwl.2.2.2, md_update_team_losses, md_update_team_losses]

/-- Witness for the amended C5 at concrete 11-7 recordings. -/
theorem claim_C5_win_credit_amended_witness :
    (((rr_record_game_score stC5 1 1 11 7).2.stats "A").wins =
      (stC5.stats "A").wins + (if (7 : Nat) < 11 then 1 else 0)) ∧
    (((md_record_game_score stC5md 1 1 11 7).2.stats "C & D").wins =
      (stC5md.stats "C & D").wins + (if (7 : Nat) < 11 then 0 else 1)) := by
  constructor
  · exact ((claim_C5_win_credit_amended.1 stC5 1 1 11 7 rdC1rr 0
      (mk_court_data 1 ["A", "B", "C", "D"]) (by decide) (by decide) (by decide)
      (by decide) (by decide) (by decide)).2.1 "A" (by decide) (by decide)
      (by decide)).1
  · exact (claim_C5_win_credit_amended.2 stC5md 1 1 11 7 rdC1md 0
      { court := 1, team1 := teamAB, team2 := teamCD, team1_score := 0,
        team2_score := 0, completed := false }
      (by decide) (by decide) (by decide) (by decide) (by decide) (by decide)
      (by decide)).2.2.2.1

/-- C10 fails as stated: `reset_all` — which performs neither seeding
nor promotion/relegation (it merely clears rounds, stats and the
seeding flag) — reassigns every roster member tier 2, so the tier-4
default of a freshly added player does not persist until the next
seeding or promotion/relegation event. -/
theorem claim_C10_counterexample :
    (sl_add_player slEmpty "A").2.tiers "A" = some 4 ∧
    (sl_reset_all stC10).is_seeding_session = true ∧
    (sl_reset_all stC10).tiers "A" = some 2 := by
  refine ⟨by decide, by decide, by decide⟩

/-- C10 amended.  `add_player` assigns every new participant tier 4, and
that assignment persists across round generation, score recording and
session clearing — none of which touch the tier dictionary — until
seeding or promotion/relegation changes it; `reset_all`, however,
rebuilds the tier dictionary assigning every roster member tier 2. -/
theorem claim_C10_default_tier_amended :
    (∀ (st : SLState) (name : String), name ≠ "" → name ∉ st.players →
      (sl_add_player st name).2.tiers name = some 4) ∧
    (∀ (st : SLState) (σseed : List String → List String)
      (σtier : Nat → List String → List String),
      ((sl_generate_round st σseed σtier).2.2).tiers = st.tiers) ∧
    (∀ (st : SLState) (rn cn s1 s2 : Nat) (t1 t2 : Option (List String)),
      ((sl_record_game_score st rn cn s1 s2 t1 t2).2).tiers = st.tiers) ∧
    (∀ st : SLState, (sl_clear_current_session st).tiers = st.tiers) ∧
    (∀ (st : SLState) (p : String), p ∈ st.players →
      (sl_reset_all st).tiers p = some 2) := by
  refine ⟨?_, ?_, ?_, ?_, ?_⟩
  · intro st name h1 h2
    simp [sl_add_player, h1, h2]
  · intro st σseed σtier
    unfold sl_generate_round sl_generate_seeding_round sl_generate_tiered_round
      sl_fin_round
    dsimp only
    split
    · split
      · rfl
      · rfl
    · rfl
  · intro st rn cn s1 s2 t1 t2
    unfold sl_record_game_score
    dsimp only
    split
    · rfl
    · split
      · rfl
      · split
        · rfl
        · split
          · rfl
          · rfl
  · intro st
    rfl
  · intro st p hp
    simp [sl_reset_all, hp]

/-- Witness for the amended C10 at a concrete one-player league. -/
theorem claim_C10_default_tier_amended_witness :
    (sl_add_player slEmpty "A").2.tiers "A" = some 4 ∧
    (sl_reset_all stC10).tiers "A" = some 2 :=
  ⟨claim_C10_default_tier_amended.1 slEmpty "A" (by decide) (by decide),
   claim_C10_default_tier_amended.2.2.2.2 stC10 "A" (by decide)⟩

/-! ### Facts about the seeded rankings and the per-tier lists -/

theorem set_tiers_eval (ps : List String) (t : Nat) (f : String → Option Nat)
    (q : String) : set_tiers ps t f q = if q ∈ ps then some t else f q := by
  induction ps generalizing f with
  | nil => simp [set_tiers]
  | cons a l ih =>
    simp only [set_tiers, List.foldl_cons] at ih ⊢
    rw [ih]
    by_cases hql : q ∈ l
    · simp [hql, List.mem_cons]
    · by_cases hqa : q = a
      · simp [hql, hqa]
      · simp [hql, hqa]

theorem sl_rankings_mem {st : SLState} {e : SLRankEntry}
    (he : e ∈ sl_get_rankings st) :
    e.player ∈ st.players ∧ e = sl_mk_entry st e.player := by
  unfold sl_get_rankings at he
  by_cases h : st.players = []
  · rw [if_pos h] at he
    cases he
  · rw [if_neg h] at he
    have h1 := (pysort_mem sl_rank_key_le _ e).1 he
    obtain ⟨p, hp, hpe⟩ := List.mem_map.1 h1
    have hpl : e.player = p := by rw [← hpe]; rfl
    exact ⟨hpl ▸ hp, by rw [hpl, hpe]⟩

theorem sl_rankings_players_perm (st : SLState) :
    ((sl_get_rankings st).map (fun e => e.player)).Perm st.players := by
  unfold sl_get_rankings
  by_cases h : st.players = []
  · rw [if_pos h, h]
    simp
  · rw [if_neg h]
    have h1 := (pysort_perm sl_rank_key_le
      (st.players.map (sl_mk_entry st))).map (fun e => e.player)
    rw [List.map_map] at h1
    have h2 : st.players.map ((fun e => e.player) ∘ sl_mk_entry st) =
        st.players := by
      simp [Function.comp_def, sl_mk_entry]
    rwa [h2] at h1

theorem tier_list_player_nodup (st : SLState) (i : Nat)
    (hnd : st.players.Nodup) :
    ((tier_list st i).map (fun e => e.player)).Nodup := by
  have h1 : ((sl_get_rankings st).map (fun e => e.player)).Nodup :=
    (sl_rankings_players_perm st).nodup_iff.2 hnd
  exact h1.sublist ((List.filter_sublist _).map _)

theorem tier_list_player_tier {st : SLState} {i : Nat} {p : String}
    (h : p ∈ (tier_list st i).map (fun e => e.player)) :
    (st.tiers p).getD 4 = i := by
  obtain ⟨e, he, hpe⟩ := List.mem_map.1 h
  have h1 := List.mem_filter.1 he
  have h2 := sl_rankings_mem h1.1
  have h3 : e.tier = i := by simpa using h1.2
  have h4 : e.tier = (st.tiers e.player).getD 4 := by
    rw [h2.2]
    simp [sl_mk_entry]
  rw [← hpe, ← h4, h3]

theorem bottom2_sub_players {l : List SLRankEntry} {p : String}
    (h : p ∈ bottom2 l) : p ∈ l.map (fun e => e.player) := by
  obtain ⟨e, he, hpe⟩ := List.mem_map.1 h
  exact List.mem_map.2 ⟨e, List.drop_subset _ _ he, hpe⟩

theorem top2_sub_players {l : List SLRankEntry} {p : String}
    (h : p ∈ top2 l) : p ∈ l.map (fun e => e.player) := by
  obtain ⟨e, he, hpe⟩ := List.mem_map.1 h
  exact List.mem_map.2 ⟨e, List.take_subset _ _ he, hpe⟩

theorem bottom2_top2_disjoint {l : List SLRankEntry}
    (hnd : (l.map (fun e => e.player)).Nodup) (hlen : 4 ≤ l.length)
    (p : String) : ¬(p ∈ bottom2 l ∧ p ∈ top2 l) := by
  rintro ⟨hb, ht⟩
  have hsplit : l.map (fun e => e.player) =
      (l.take 2).map (fun e => e.player) ++ (l.drop 2).map (fun e => e.player) := by
    rw [← List.map_append, List.take_append_drop]
  have hdisj : ((l.take 2).map (fun e => e.player)).Disjoint
      ((l.drop 2).map (fun e => e.player)) := by
    apply List.disjoint_of_nodup_append
    rw [← hsplit]
    exact hnd
  have hb2 : p ∈ (l.drop 2).map (fun e => e.player) := by
    obtain ⟨e, he, hpe⟩ := List.mem_map.1 hb
    have h1 : l.drop (l.length - 2) = (l.drop 2).drop (l.length - 4) := by
      rw [List.drop_drop]
      congr 1
      omega
    rw [h1] at he
    exact List.mem_map.2 ⟨e, List.drop_subset _ _ he, hpe⟩
  exact hdisj ht hb2

/-- C9.  At a tiered session boundary, promotion/relegation is exactly
characterised by the pre-swap per-tier ranking lists: for each adjacent
pair (1-2, 2-3, 3-4) whose two tiers both hold at least 4 entries,
precisely the bottom two of the upper tier move down one tier and
precisely the top two of the lower tier move up one tier, everyone else
— including every member of a pair with an under-populated side — keeps
their tier entry unchanged.  All six swap sets are read off the same
pre-swap rankings (not cascaded). -/
theorem claim_C9_promotion_relegation (st : SLState) (hnd : st.players.Nodup) :
    ∀ p ∈ st.players,
      (sl_promo_releg st).1.tiers p =
        if 4 ≤ (tier_list st 1).length ∧ 4 ≤ (tier_list st 2).length ∧
            p ∈ bottom2 (tier_list st 1) then some 2
        else if 4 ≤ (tier_list st 1).length ∧ 4 ≤ (tier_list st 2).length ∧
            p ∈ top2 (tier_list st 2) then some 1
        else if 4 ≤ (tier_list st 2).length ∧ 4 ≤ (tier_list st 3).length ∧
            p ∈ bottom2 (tier_list st 2) then some 3
        else if 4 ≤ (tier_list st 2).length ∧ 4 ≤ (tier_list st 3).length ∧
            p ∈ top2 (tier_list st 3) then some 2
        else if 4 ≤ (tier_list st 3).length ∧ 4 ≤ (tier_list st 4).length ∧
            p ∈ bottom2 (tier_list st 3) then some 4
        else if 4 ≤ (tier_list st 3).length ∧ 4 ≤ (tier_list st 4).length ∧
            p ∈ top2 (tier_list st 4) then some 3
        else st.tiers p := by
  intro p hp
  have hbot : ∀ i, p ∈ bottom2 (tier_list st i) → (st.tiers p).getD 4 = i :=
    fun i h => tier_list_player_tier (bottom2_sub_players h)
  have htop : ∀ i, p ∈ top2 (tier_list st i) → (st.tiers p).getD 4 = i :=
    fun i h => tier_list_player_tier (top2_sub_players h)
  have hdisj : ∀ i, 4 ≤ (tier_list st i).length →
      ¬(p ∈ bottom2 (tier_list st i) ∧ p ∈ top2 (tier_list st i)) :=
    fun i hl => bottom2_top2_disjoint (tier_list_player_nodup st i hnd) hl p
  simp only [sl_promo_releg, ite_apply, set_tiers_eval]
  by_cases mb1 : p ∈ bottom2 (tier_list st 1)
  · have h1 := hbot 1 mb1
    have nt2 : p ∉ top2 (tier_list st 2) := fun hc => by
      have := htop 2 hc; omega
    have nb2 : p ∉ bottom2 (tier_list st 2) := fun hc => by
      have := hbot 2 hc; omega
    have nt3 : p ∉ top2 (tier_list st 3) := fun hc => by
      have := htop 3 hc; omega
    have nb3 : p ∉ bottom2 (tier_list st 3) := fun hc => by
      have := hbot 3 hc; omega
    have nt4 : p ∉ top2 (tier_list st 4) := fun hc => by
      have := htop 4 hc; omega
    simp [mb1, nt2, nb2, nt3, nb3, nt4]
  · by_cases mt2 : p ∈ top2 (tier_list st 2)
    · have h2 := htop 2 mt2
      have nt3 : p ∉ top2 (tier_list st 3) := fun hc => by
        have := htop 3 hc; omega
      have nb3 : p ∉ bottom2 (tier_list st 3) := fun hc => by
        have := hbot 3 hc; omega
      have nt4 : p ∉ top2 (tier_list st 4) := fun hc => by
        have := htop 4 hc; omega
      by_cases mb2 : p ∈ bottom2 (tier_list st 2)
      · by_cases hl2 : 4 ≤ (tier_list st 2).length
        · exact absurd ⟨mb2, mt2⟩ (hdisj 2 hl2)
        · simp [mb1, nt3, nb3, nt4, hl2]
      · simp [mb1, mt2, mb2, nt3, nb3, nt4]
    · by_cases mb2 : p ∈ bottom2 (tier_list st 2)
      · have h2 := hbot 2 mb2
        have nt3 : p ∉ top2 (tier_list st 3) := fun hc => by
          have := htop 3 hc; omega
        have nb3 : p ∉ bottom2 (tier_list st 3) := fun hc => by
          have := hbot 3 hc; omega
        have nt4 : p ∉ top2 (tier_list st 4) := fun hc => by
          have := htop 4 hc; omega
        simp [mb1, mt2, mb2, nt3, nb3, nt4]
      · by_cases mt3 : p ∈ top2 (tier_list st 3)
        · have h3 := htop 3 mt3
          have nt4 : p ∉ top2 (tier_list st 4) := fun hc => by
            have := htop 4 hc; omega
          by_cases mb3 : p ∈ bottom2 (tier_list st 3)
          · by_cases hl3 : 4 ≤ (tier_list st 3).length
            · exact absurd ⟨mb3, mt3⟩ (hdisj 3 hl3)
            · simp [mb1, mt2, mb2, nt4, hl3]
          · simp [mb1, mt2, mb2, mt3, mb3, nt4]
        · by_cases mb3 : p ∈ bottom2 (tier_list st 3)
          · have h3 := hbot 3 mb3
            have nt4 : p ∉ top2 (tier_list st 4) := fun hc => by
              have := htop 4 hc; omega
            simp [mb1, mt2, mb2, mt3, mb3, nt4]
          · by_cases mt4 : p ∈ top2 (tier_list st 4)
            · simp [mb1, mt2, mb2, mt3, mb3, mt4]
            · simp [mb1, mt2, mb2, mt3, mb3, mt4]

/-- Witness for C9 on a sixteen-player league with four members per
tier: the bottom two of tier 1 (players A, B with the lowest points in
the tier) are relegated to tier 2, the top two of tier 2 (H, G) promoted
to tier 1, and a mid-tier player (C) keeps tier 1. -/
theorem claim_C9_promotion_relegation_witness :
    (sl_promo_releg stC9).1.tiers "A" =
      (if 4 ≤ (tier_list stC9 1).length ∧ 4 ≤ (tier_list stC9 2).length ∧
          "A" ∈ bottom2 (tier_list stC9 1) then some 2
        else if 4 ≤ (tier_list stC9 1).length ∧ 4 ≤ (tier_list stC9 2).length ∧
            "A" ∈ top2 (tier_list stC9 2) then some 1
        else if 4 ≤ (tier_list stC9 2).length ∧ 4 ≤ (tier_list stC9 3).length ∧
            "A" ∈ bottom2 (tier_list stC9 2) then some 3
        else if 4 ≤ (tier_list stC9 2).length ∧ 4 ≤ (tier_list stC9 3).length ∧
            "A" ∈ top2 (tier_list stC9 3) then some 2
        else if 4 ≤ (tier_list stC9 3).length ∧ 4 ≤ (tier_list stC9 4).length ∧
            "A" ∈ bottom2 (tier_list stC9 3) then some 4
        else if 4 ≤ (tier_list stC9 3).length ∧ 4 ≤ (tier_list stC9 4).length ∧
            "A" ∈ top2 (tier_list stC9 4) then some 3
        else stC9.tiers "A") ∧
    (sl_promo_releg stC9).1.tiers "A" = some 2 ∧
    (sl_promo_releg stC9).1.tiers "H" = some 1 ∧
    (sl_promo_releg stC9).1.tiers "C" = some 1 := by
  refine ⟨?_, by decide, by decide, by decide⟩
  exact claim_C9_promotion_relegation stC9 (by decide) "A" (by decide)

end PBEngine
